import Mathlib

/-!
# Detection Correlation Engine — verification development

Shallow embedding of the BASTION detection-correlation core:

* `integration_engine.py` (the complete plugin revision): timestamp
  normalization `_to_dt`, alert summarization `_summarize_hit` with its
  field extractors (`_extract_mitre_id`, `_extract_pid`, `_extract_ppid`),
  PID matching `_match_pid`, confidence scoring `_calculate_confidence`,
  the per-step search wrapper `_search` and the per-link body of
  `correlate`.
* `coverage.py`: `_to_utc`, `_mitre_ids_from_source`,
  `_extract_operation_techniques`, `_prepare_alert`,
  `_store_representative` and `compute_coverage`.

Heterogeneous JSON-ish documents are modelled by the inductive `Val`
(Python values: `None`, `bool`, `int`, `float`, `str`, `datetime`,
`list`, `dict`).  Python `float` literals are modelled by the rational
numbers they denote in the source text.  Instants are integers counting
microseconds since the Unix epoch, UTC — the exact precision of a
Python `datetime`, so `timedelta` arithmetic and comparisons are exact.
Code that can raise is modelled in `Except Unit`; a `try/except` that
swallows the exception becomes a `match` on that result.  The two
injected capabilities (alert-store search and range fetch) are
function/value parameters, as in the spec ownership model.
-/

namespace Bastion

/-- Python-like value, covering the document shapes the engine handles. -/
inductive Val where
  | none
  | bool (b : Bool)
  | int (n : Int)
  | float (q : ℚ)
  | str (s : String)
  /-- a `datetime` instance: naive wall-clock microseconds since the
  epoch (fields read as if UTC) plus the optional `tzinfo` utcoffset in
  microseconds. -/
  | dt (naive : Int) (tz : Option Int)
  | list (xs : List Val)
  | dict (kvs : List (String × Val))
deriving Repr

/-- Structural equality test on `Val` (Python `==` for the shapes used here). -/
def Val.beq : Val → Val → Bool
  | .none, .none => true
  | .bool a, .bool b => a == b
  | .int a, .int b => a == b
  | .float a, .float b => a == b
  | .str a, .str b => a == b
  | .dt a b, .dt c d => a == c && b == d
  | .list xs, .list ys => go xs ys
  | .dict xs, .dict ys => goD xs ys
  | _, _ => false
where
  go : List Val → List Val → Bool
    | [], [] => true
    | a :: as, b :: bs => Val.beq a b && go as bs
    | _, _ => false
  goD : List (String × Val) → List (String × Val) → Bool
    | [], [] => true
    | (k, a) :: as, (l, b) :: bs => k == l && Val.beq a b && goD as bs
    | _, _ => false

instance : BEq Val := ⟨Val.beq⟩

/-- Python truthiness: `None`, `False`, `0`, `0.0`, `""`, `[]`, `{}` are falsy. -/
def Val.truthy : Val → Bool
  | .none => false
  | .bool b => b
  | .int n => n != 0
  | .float q => q != 0
  | .str s => s != ""
  | .dt _ _ => true
  | .list xs => !xs.isEmpty
  | .dict kvs => !kvs.isEmpty

/-- Python `x or y`: `x` when truthy, else `y`. -/
def pyOr (x y : Val) : Val := if x.truthy then x else y

/-- Whether the value is a Python `dict`. -/
def Val.isDict : Val → Bool
  | .dict _ => true
  | _ => false

/-- First binding of key `k` in an association list. -/
def lookupKV (kvs : List (String × Val)) (k : String) : Option Val :=
  match kvs with
  | [] => Option.none
  | (k', v) :: rest => if k' = k then some v else lookupKV rest k

/-- Python `d.get(k, default)` on a value already known to be a dict;
on a non-dict it returns the default (callers that can reach a non-dict
use `getE` instead, which models the raised `AttributeError`). -/
def Val.getD (v : Val) (k : String) (dflt : Val) : Val :=
  match v with
  | .dict kvs => (lookupKV kvs k).getD dflt
  | _ => dflt

/-- Python `d.get(k)` (default `None`) for dict receivers. -/
def Val.get (v : Val) (k : String) : Val := v.getD k .none

/-- Python `d.get(k)` where the receiver may be any value: a non-dict
receiver raises `AttributeError` (modelled as `Except.error`). -/
def Val.getE (v : Val) (k : String) : Except Unit Val :=
  match v with
  | .dict kvs => .ok ((lookupKV kvs k).getD .none)
  | _ => .error ()

/-- Python `d[k] = x` on a dict: replace the first binding of `k`
in place (dict order is preserved), or append a new binding. -/
def setKV (kvs : List (String × Val)) (k : String) (x : Val) : List (String × Val) :=
  match kvs with
  | [] => [(k, x)]
  | (k', v) :: rest => if k' = k then (k, x) :: rest else (k', v) :: setKV rest k x

/-- Python `d[k] = x` lifted to `Val` (no-op on non-dicts; only applied to dicts). -/
def Val.set (v : Val) (k : String) (x : Val) : Val :=
  match v with
  | .dict kvs => .dict (setKV kvs k x)
  | _ => v

/-- ASCII whitespace stripped by Python `str.strip()` on the inputs seen here. -/
def isPySpace (c : Char) : Bool :=
  c = ' ' || c = '\t' || c = '\n' || c = '\r' || c = '\x0b' || c = '\x0c'

/-- Python `s.strip()` (ASCII whitespace model). -/
def pyStrip (s : String) : String :=
  ⟨((s.data.dropWhile isPySpace).reverse.dropWhile isPySpace).reverse⟩

/-- Python `s.upper()` (ASCII model, enough for technique ids). -/
def pyUpper (s : String) : String := ⟨s.data.map Char.toUpper⟩

/-- Python `s.lower()` (ASCII model). -/
def pyLower (s : String) : String := ⟨s.data.map Char.toLower⟩

/-- Worker for `pyReplace`: fuel-indexed left-to-right scan so that the
definition is structurally recursive and kernel-reducible. -/
def repHelpFuel (pat repl : List Char) : Nat → List Char → List Char
  | 0, cs => cs
  | _ + 1, [] => []
  | fuel + 1, c :: rest =>
    if pat ≠ [] && pat.isPrefixOf (c :: rest) then
      repl ++ repHelpFuel pat repl fuel (List.drop (pat.length - 1) rest)
    else c :: repHelpFuel pat repl fuel rest

/-- Python `s.replace(pat, repl)`: replace every non-overlapping
occurrence, scanning left to right (for nonempty `pat`). -/
def pyReplace (s pat repl : String) : String :=
  ⟨repHelpFuel pat.data repl.data s.data.length s.data⟩

/-- Python `str(v)`.  For the scalar shapes this matches CPython; for
containers only the bracket/brace framing matters downstream (such a
string never begins with the letter `T`, which is all the technique-id
filter looks at), so element quoting is not reproduced. -/
def Val.pyStr : Val → String
  | .none => "None"
  | .bool b => if b then "True" else "False"
  | .int n => toString n
  | .float q => if q.den = 1 then toString q.num ++ ".0" else toString q
  | .str s => s
  | .dt n _ => toString n
  | .list xs => "[" ++ go xs ++ "]"
  | .dict kvs => "\x7b" ++ goD kvs ++ "\x7d"
where
  go : List Val → String
    | [] => ""
    | [x] => Val.pyStr x
    | x :: rest => Val.pyStr x ++ ", " ++ go rest
  goD : List (String × Val) → String
    | [] => ""
    | [(k, v)] => k ++ ": " ++ Val.pyStr v
    | (k, v) :: rest => k ++ ": " ++ Val.pyStr v ++ ", " ++ goD rest

/-! ## Calendar arithmetic and ISO-8601 parsing

`datetime.fromisoformat` is a standard-library function; it is modelled
here by an executable parser for the extended format
`YYYY-MM-DD[<sep>HH:MM[:SS[.ffffff]]][±HH:MM[:SS]]` (separator `T` or a
space), the shapes this system exchanges.  Field ranges are validated as
CPython does; a string outside this format fails to parse. -/

/-- Microseconds in one second / in one day. -/
def usPerSec : Int := 1000000

/-- Gregorian leap year. -/
def isLeap (y : Nat) : Bool := y % 4 = 0 && (y % 100 ≠ 0 || y % 400 = 0)

/-- Days in a month (1-based). -/
def daysInMonth (y m : Nat) : Nat :=
  if m = 2 then (if isLeap y then 29 else 28)
  else if m = 4 ∨ m = 6 ∨ m = 9 ∨ m = 11 then 30
  else 31

/-- Days from 1970-01-01 to the civil date `y-m-d` (days-from-civil). -/
def daysFromCivil (y m d : Nat) : Int :=
  let ya := if m ≤ 2 then y - 1 else y
  let era := ya / 400
  let yoe := ya - era * 400
  let mp := if m > 2 then m - 3 else m + 9
  let doy := (153 * mp + 2) / 5 + d - 1
  let doe := yoe * 365 + yoe / 4 - yoe / 100 + doy
  ((era * 146097 + doe : Nat) : Int) - 719468

/-- A parsed `datetime`: naive microseconds since the epoch (fields read
as UTC) plus the optional utcoffset in microseconds. -/
structure PyDt where
  naive : Int
  tz : Option Int
deriving Repr, DecidableEq

/-- UTC epoch microseconds of a datetime under the convention "naive
means UTC" (`replace(tzinfo=utc)`). -/
def dtEpoch (naive : Int) (tz : Option Int) : Int := naive - tz.getD 0

/-- Parse exactly `k` decimal digits into the accumulator. -/
def parseDigitsAux (acc : Nat) : Nat → List Char → Option (Nat × List Char)
  | 0, cs => some (acc, cs)
  | k + 1, c :: cs =>
    if c.isDigit then parseDigitsAux (acc * 10 + (c.toNat - 48)) k cs else Option.none
  | _ + 1, [] => Option.none

/-- Parse exactly `k` decimal digits. -/
def parseFixed (k : Nat) (cs : List Char) : Option (Nat × List Char) :=
  parseDigitsAux 0 k cs

/-- Numeric value of a digit list. -/
def natOfDigits (cs : List Char) : Nat :=
  cs.foldl (fun acc c => acc * 10 + (c.toNat - 48)) 0

/-- Parse an ISO utcoffset tail `±HH:MM[:SS]` (microseconds); `none`
means no offset (naive).  Fails on trailing garbage. -/
def parseTzTail (cs : List Char) : Option (Option Int) :=
  match cs with
  | [] => some Option.none
  | c :: rest =>
    if c = '+' ∨ c = '-' then do
      let (hh, rest) ← parseFixed 2 rest
      match rest with
      | ':' :: rest => do
        let (mm, rest) ← parseFixed 2 rest
        let (ss, rest) ←
          match rest with
          | ':' :: rest2 => do
            let (ss, rest3) ← parseFixed 2 rest2
            pure (ss, rest3)
          | [] => pure (0, ([] : List Char))
          | _ => Option.none
        if rest = [] ∧ hh ≤ 23 ∧ mm ≤ 59 ∧ ss ≤ 59 then
          let total : Int := (hh * 3600 + mm * 60 + ss : Nat) * 1000000
          some (some (if c = '-' then -total else total))
        else Option.none
      | _ => Option.none
    else Option.none

/-- Parse the time-of-day `HH:MM[:SS[.ffffff]]` and an optional
utcoffset; returns microseconds into the day and the offset. -/
def parseTimeTail (cs : List Char) : Option (Int × Option Int) := do
  let (hh, cs) ← parseFixed 2 cs
  match cs with
  | ':' :: cs => do
    let (mm, cs) ← parseFixed 2 cs
    let (ss, fracUs, cs) ←
      match cs with
      | ':' :: cs2 => do
        let (ss, cs3) ← parseFixed 2 cs2
        match cs3 with
        | '.' :: cs4 =>
          let digs := cs4.takeWhile Char.isDigit
          if 1 ≤ digs.length ∧ digs.length ≤ 6 then
            pure (ss, natOfDigits digs * 10 ^ (6 - digs.length),
                  cs4.dropWhile Char.isDigit)
          else Option.none
        | _ => pure (ss, 0, cs3)
      | _ => pure (0, 0, cs)
    let tz ← parseTzTail cs
    if hh ≤ 23 ∧ mm ≤ 59 ∧ ss ≤ 59 then
      some (((hh * 3600 + mm * 60 + ss) * 1000000 + fracUs : Nat), tz)
    else Option.none
  | _ => Option.none

/-- Model of `datetime.fromisoformat` on the extended format (see the
section comment). -/
def fromisoformat (s : String) : Option PyDt := do
  let cs := s.data
  let (y, cs) ← parseFixed 4 cs
  match cs with
  | '-' :: cs =>
    let (m, cs) ← parseFixed 2 cs
    match cs with
    | '-' :: cs => do
      let (d, cs) ← parseFixed 2 cs
      if 1 ≤ y ∧ 1 ≤ m ∧ m ≤ 12 ∧ 1 ≤ d ∧ d ≤ daysInMonth y m then
        let dayUs : Int := daysFromCivil y m d * 86400000000
        match cs with
        | [] => some ⟨dayUs, Option.none⟩
        | sep :: cs =>
          if sep = 'T' ∨ sep = ' ' then do
            let (tod, tz) ← parseTimeTail cs
            some ⟨dayUs + tod, tz⟩
          else Option.none
      else Option.none
    | _ => Option.none
  | _ => Option.none

/-- Floor division rounding to nearest (half up) for a positive divisor:
`round(a / b)`. -/
def roundDiv (a b : Int) : Int := (2 * a + b) / (2 * b)

/-- `datetime.fromtimestamp(q, utc)` for an exact rational number of
epoch seconds: microseconds, rounded to `datetime` precision. -/
def qToUs (q : ℚ) : Int := roundDiv (q.num * 1000000) (q.den : Int)

/-- Python `float(s)` on a decimal literal — optional sign, digits with
an optional fraction, optional exponent; surrounding whitespace is
stripped — composed with `fromtimestamp`: the result is exact epoch
microseconds.  (`inf`/`nan` literals and binary-double rounding are
outside this model.) -/
def pyFloatUs (s : String) : Option Int :=
  let cs := (pyStrip s).data
  let (sgn, cs) :=
    match cs with
    | '+' :: rest => ((1 : Int), rest)
    | '-' :: rest => ((-1 : Int), rest)
    | _ => ((1 : Int), cs)
  let ip := cs.takeWhile Char.isDigit
  let cs := cs.dropWhile Char.isDigit
  let (fp, cs) :=
    match cs with
    | '.' :: rest => (rest.takeWhile Char.isDigit, rest.dropWhile Char.isDigit)
    | _ => ([], cs)
  if ip.length + fp.length = 0 then Option.none
  else
    let mant : Nat := natOfDigits (ip ++ fp)
    let finish : Int → Option Int := fun exp =>
      let scale : Int := exp - fp.length + 6
      let usAbs : Int :=
        if 0 ≤ scale then mant * 10 ^ scale.toNat
        else roundDiv mant (10 ^ (-scale).toNat)
      some (sgn * usAbs)
    match cs with
    | [] => finish 0
    | e :: rest =>
      if e = 'e' ∨ e = 'E' then
        let (esgn, rest) :=
          match rest with
          | '+' :: r => ((1 : Int), r)
          | '-' :: r => ((-1 : Int), r)
          | _ => ((1 : Int), rest)
        let ed := rest.takeWhile Char.isDigit
        if ed ≠ [] ∧ rest.dropWhile Char.isDigit = [] then
          finish (esgn * natOfDigits ed)
        else Option.none
      else Option.none

/-- Does the string end with the character `Z`? -/
def endsWithZ (s : String) : Bool := s.data.getLast? == some 'Z'

/-- Drop the final character (`s[:-1]`). -/
def dropLastChar (s : String) : String := ⟨s.data.dropLast⟩

/-! ## `integration_engine._to_dt` and `coverage._to_utc` -/

/-- `integration_engine._to_dt(value)`: str/int/float/datetime to a UTC
instant (epoch microseconds), `None` when unconvertible.  A string is
stripped, a trailing `Z` is rewritten to `+00:00`, then `fromisoformat`
is tried; on parse failure the function logs and returns `None` — there
is no epoch-seconds retry.  A naive datetime is assumed UTC.  `bool`
values take the numeric branch because Python `bool` is a subclass of
`int`. -/
def to_dt : Val → Option Int
  | .none => Option.none
  | .dt n tz => some (dtEpoch n tz)
  | .bool b => some (if b then usPerSec else 0)
  | .int n => some (n * usPerSec)
  | .float q => some (qToUs q)
  | .str s =>
    let s1 := pyStrip s
    let s2 := if endsWithZ s1 then dropLastChar s1 ++ "+00:00" else s1
    match fromisoformat s2 with
    | some d => some (dtEpoch d.naive d.tz)
    | Option.none => Option.none
  | _ => Option.none

/-- `coverage._to_utc(dt)`: datetime/number/string to a UTC instant in
epoch microseconds; raises (`Except.error`) on any other type or on an
unparseable string.  For a string, every `Z` is replaced by `+00:00`
and `fromisoformat` is tried; a *naive* parse result goes through
`astimezone(utc)`, which interprets it in the host local timezone,
modelled by the explicit `localOff` parameter (utcoffset of the host
zone, microseconds).  On parse failure the string is read as epoch
seconds via `float(...)`; if that also fails the error propagates
(`InvalidTimestamp`). -/
def to_utc (localOff : Int) : Val → Except Unit Int
  | .dt n tz => .ok (dtEpoch n tz)
  | .bool b => .ok (if b then usPerSec else 0)
  | .int n => .ok (n * usPerSec)
  | .float q => .ok (qToUs q)
  | .str s =>
    match fromisoformat (pyReplace s "Z" "+00:00") with
    | some d =>
      match d.tz with
      | some off => .ok (d.naive - off)
      | Option.none => .ok (d.naive - localOff)
    | Option.none =>
      match pyFloatUs s with
      | some us => .ok us
      | Option.none => .error ()
  | _ => .error ()

/-- `coverage._maybe_to_utc`: `None` passes through, otherwise `_to_utc`. -/
def maybe_to_utc (localOff : Int) : Val → Except Unit (Option Int)
  | .none => .ok Option.none
  | v => (to_utc localOff v).map some

/-! ## Stable sorting

Python `list.sort(key=...)` is a stable ascending sort; it is modelled
by a stable insertion sort with a total boolean preorder `le` (`le a b`
= "key of `a` ≤ key of `b`").  For match keys whose third components are
of different runtime types CPython would raise `TypeError`; the order
below totalises that comparison by type rank — no claim proved here
depends on the relative order of such pairs. -/

/-- Insert `x` after every element `y` with `le y x` (stable). -/
def insertStable (le : Val → Val → Bool) (x : Val) : List Val → List Val
  | [] => [x]
  | y :: ys => if le y x then y :: insertStable le x ys else x :: y :: ys

/-- Stable insertion sort. -/
def stableSort (le : Val → Val → Bool) (l : List Val) : List Val :=
  go le l []
where
  go (le : Val → Val → Bool) : List Val → List Val → List Val
    | [], acc => acc
    | x :: xs, acc => go le xs (insertStable le x acc)

/-- Type rank used to totalise cross-type comparisons. -/
def Val.rank : Val → Nat
  | .none => 0
  | .bool _ => 1
  | .int _ => 2
  | .float _ => 3
  | .str _ => 4
  | .dt _ _ => 5
  | .list _ => 6
  | .dict _ => 7

/-- Ascending order on sort-key components (strings and numbers as in
Python; other pairs by type rank). -/
def valKeyLe (a b : Val) : Bool :=
  match a, b with
  | .str x, .str y => decide (x ≤ y)
  | .int x, .int y => decide (x ≤ y)
  | .bool x, .bool y => !x || y
  | _, _ => decide (a.rank ≤ b.rank)

/-- `False < True` (Python bool ordering inside sort keys). -/
def boolLtB (a b : Bool) : Bool := !a && b

/-! ## Alert field extraction (`integration_engine`) -/

/-- `_extract_mitre_id(*values)`: the **first** truthy value wins; a
nonempty list yields its **first** element (or `None` when that element
is falsy); a string is returned as is; any other truthy value is
skipped and the scan continues. -/
def extract_mitre_id : List Val → Val
  | [] => .none
  | v :: rest =>
    if v.truthy then
      match v with
      | .list (x :: _) => if x.truthy then x else .none
      | .str s => .str s
      | _ => extract_mitre_id rest
    else extract_mitre_id rest

/-- `_extract_pid(data)`: auditd `data.audit.pid`, else Sysmon
`data.win.eventdata.processId`/`ProcessId`; `None` when absent or when
`data` is not a dict.  A found value is stringified. -/
def extract_pid (data : Val) : Val :=
  if !data.isDict then .none
  else if (data.get "audit").isDict && ((data.get "audit").get "pid").truthy then
    .str ((data.get "audit").get "pid").pyStr
  else
    let win := data.get "win"
    if win.isDict then
      let ed := win.get "eventdata"
      if ed.isDict then
        let pid := pyOr (ed.get "processId") (ed.get "ProcessId")
        if pid.truthy then .str pid.pyStr else .none
      else .none
    else .none

/-- `_extract_ppid(data)`: auditd `data.audit.ppid`, else Sysmon
`data.win.eventdata.parentProcessId`/`ParentProcessId`. -/
def extract_ppid (data : Val) : Val :=
  if !data.isDict then .none
  else if (data.get "audit").isDict && ((data.get "audit").get "ppid").truthy then
    .str ((data.get "audit").get "ppid").pyStr
  else
    let win := data.get "win"
    if win.isDict then
      let ed := win.get "eventdata"
      if ed.isDict then
        let ppid := pyOr (ed.get "parentProcessId") (ed.get "ParentProcessId")
        if ppid.truthy then .str ppid.pyStr else .none
      else .none
    else .none

/-- `_match_pid(link_pid, alert_pid, alert_ppid)`: `(matched, type)`
with direct pid equality first (`'pid'`), then parent-pid equality
(`'ppid'`); `link_pid is None` never matches.  Comparison is on the
stringified values, and a falsy alert value never matches. -/
def match_pid (link_pid : Val) (alert_pid alert_ppid : Val) : Bool × Val :=
  match link_pid with
  | .none => (false, .none)
  | _ =>
    let lps := link_pid.pyStr
    if alert_pid.truthy && alert_pid.pyStr = lps then (true, .str "pid")
    else if alert_ppid.truthy && alert_ppid.pyStr = lps then (true, .str "ppid")
    else (false, .none)

/-- `m.get('pid_matched', False)` read as a boolean. -/
def pidMatchedFlag (m : Val) : Bool := (m.getD "pid_matched" (.bool false)).truthy

/-- `_calculate_confidence(matches, link_pid)`: `0.0` for no matches;
else base `0.5`, `+0.4` when a pid-matched survivor has match type
`'pid'`, else `+0.3` when one has `'ppid'`; capped by `min(_, 1.0)`.
The `link_pid` argument is unused by the source body as well. -/
def calculate_confidence (ms : List Val) (_link_pid : Val) : ℚ :=
  if ms.isEmpty then 0
  else
    let pid_matches := ms.filter pidMatchedFlag
    let base : ℚ := 1/2
    let base :=
      if !pid_matches.isEmpty then
        if pid_matches.any (fun m => m.get "pid_match_type" == Val.str "pid") then base + 2/5
        else if pid_matches.any (fun m => m.get "pid_match_type" == Val.str "ppid") then base + 3/10
        else base
      else base
    min base 1

/-- The total remainder of `_summarize_hit`'s body once `src` is known
to be a dict: every further access is guarded by an `isinstance` check
or reads a key of a value already forced to be a dict, so nothing can
raise from here on. -/
def summarize_src (hit src : Val) : Val :=
  let doc_id := hit.get "_id"
  let rule0 := src.get "rule"
  let rule := if rule0.isDict then rule0 else Val.dict []
  let data := src.get "data"
  let data_mitre :=
    if data.isDict then
      let dm := data.getD "mitre" (.dict [])
      if dm.isDict then dm else Val.dict []
    else Val.dict []
  let rule_mitre :=
    match rule.get "mitre" with
    | .list (x :: _) => if x.isDict then x else Val.dict []
    | .dict kvs => .dict kvs
    | _ => Val.dict []
  let agent0 := src.get "agent"
  let agent := if agent0.isDict then agent0 else Val.dict []
  let ts := pyOr (src.get "@timestamp") (src.get "timestamp")
  let mitre_id := extract_mitre_id [data_mitre.get "id", rule_mitre.get "id",
    src.get "mitre.id", src.get "rule.mitre.id"]
  let mitre_tactic := pyOr (pyOr (pyOr (data_mitre.get "tactic") (rule_mitre.get "tactic"))
    (src.get "mitre.tactic")) (src.get "rule.mitre.tactic")
  let description := pyOr (pyOr (pyOr (pyOr (rule.get "description")
    (src.get "rule.description")) (src.get "message")) (src.get "full_log")) (.str "")
  let dAuditType :=
    if data.isDict && (data.get "audit").isDict then (data.get "audit").get "type" else Val.none
  let dAuditExe :=
    if data.isDict && (data.get "audit").isDict then (data.get "audit").get "exe" else Val.none
  Val.dict [
    ("doc_id", doc_id),
    ("@timestamp", ts),
    ("rule.id", pyOr (rule.get "id") (src.get "rule.id")),
    ("level", pyOr (pyOr (rule.get "level") (src.get "rule.level")) (src.get "level")),
    ("mitre.id", mitre_id),
    ("mitre.tactic", mitre_tactic),
    ("agent.id", pyOr (agent.get "id") (src.get "agent.id")),
    ("agent.name", pyOr (agent.get "name") (src.get "agent.name")),
    ("description", description),
    ("data.audit.type", dAuditType),
    ("data.audit.exe", dAuditExe),
    ("pid", extract_pid data),
    ("ppid", extract_ppid data)]

/-- The body of `_summarize_hit(hit)` (everything inside its `try`):
summarize one Elasticsearch/OpenSearch hit into the flat match record.
`Except.error` is the case in which the body raises — exactly when
`hit['_source']` is a truthy non-dict: the first attribute access on it
(`src.get('rule')`) raises `AttributeError`, while with a dict `src`
every later access is guarded by an `isinstance` check (see
`summarize_src`).  The enclosing `try/except` is `summarize_hit`. -/
def summarize_hit_body (hit : Val) : Except Unit Val :=
  if !hit.truthy || !hit.isDict then .ok (Val.dict [])
  else
    let src := pyOr (hit.getD "_source" (.dict [])) (.dict [])
    if !src.isDict then .error ()
    else .ok (summarize_src hit src)

/-- `_summarize_hit(hit)`: the body under its blanket `try/except` —
any raised error becomes the empty record `{}`. -/
def summarize_hit (hit : Val) : Val :=
  match summarize_hit_body hit with
  | .ok v => v
  | .error _ => Val.dict []

/-! ## Per-step search and correlation (`integration_engine`) -/

/-- Truthiness of `ts_epoch` (`None` or `0.0` both skip the search). -/
def epochTruthy : Option Int → Bool
  | some q => q != 0
  | Option.none => false

/-- `_search(technique_id, ts_epoch)`.  The injected `resp` is the
outcome of `self.client.search(...)` for this step's query
(`Except.error` = the raised exception, absorbed by the bare `except`
into `[]`).  `_build_query` only shapes the request sent to the store,
so it is not reproduced; the `resp.get('hits',{}).get('hits',[])`
unwrapping is represented by the hit list itself.  Each hit is
summarized; falsy (empty) summaries are dropped. -/
def search (technique_id : Val) (ts_epoch : Option Int)
    (resp : Except Unit (List Val)) : List Val :=
  if !technique_id.truthy then []
  else if !epochTruthy ts_epoch then []
  else
    match resp with
    | .error _ => []
    | .ok hits => (hits.map summarize_hit).filter Val.truthy

/-- One execution-chain entry, with the attributes `correlate` reads
(`getattr` defaults: `''` for `id`/`paw`, `None` elsewhere;
`technique_id`/`ability_name` stand for
`getattr(getattr(link,'ability',None), ..., None)`). -/
structure Link where
  id : Val := .str ""
  paw : Val := .str ""
  technique_id : Val := .none
  ability_name : Val := .str ""
  finish : Val := .none
  start : Val := .none
  decide : Val := .none
  pid : Val := .none

/-- `link.finish or link.start or link.decide`, normalized by `_to_dt`
(this is both `ts_dt` and, in microseconds, `ts_epoch`). -/
def stepTsEpoch (l : Link) : Option Int :=
  to_dt (pyOr (pyOr l.finish l.start) l.decide)

/-- An injected alert-store client: technique id and center instant to
the search response for that step's query. -/
def Client : Type := Val → Option Int → Except Unit (List Val)

/-- The candidate matches for one link: built and searched only when
`technique_id and ts_epoch` is truthy (otherwise the step is skipped
with no matches). -/
def stepCandidates (client : Client) (l : Link) : List Val :=
  if l.technique_id.truthy && epochTruthy (stepTsEpoch l) then
    search l.technique_id (stepTsEpoch l) (client l.technique_id (stepTsEpoch l))
  else []

/-- The per-match annotation written by `correlate`:
`match['pid_matched']`, `match['pid_match_type']`. -/
def annotateMatch (link_pid : Val) (m : Val) : Val :=
  let r := match_pid link_pid (m.get "pid") (m.get "ppid")
  (m.set "pid_matched" (.bool r.1)).set "pid_match_type" r.2

/-- Ascending order on the sort key
`(type != 'pid', type != 'ppid', m.get('@timestamp',''))`. -/
def sortKeyLe (m1 m2 : Val) : Bool :=
  let a1 := m1.get "pid_match_type" != Val.str "pid"
  let a2 := m2.get "pid_match_type" != Val.str "pid"
  let b1 := m1.get "pid_match_type" != Val.str "ppid"
  let b2 := m2.get "pid_match_type" != Val.str "ppid"
  if a1 ≠ a2 then boolLtB a1 a2
  else if b1 ≠ b2 then boolLtB b1 b2
  else valKeyLe (m1.getD "@timestamp" (.str "")) (m2.getD "@timestamp" (.str ""))

/-- The PID-tightening block of `correlate` (entered when the step has
candidate matches and a truthy pid): annotate every candidate, keep
only pid-matched ones — all of them are discarded when none matched —
and sort pid-matches first, then ppid, then ascending timestamp. -/
def pidPhase (link_pid : Val) (ms : List Val) : List Val :=
  let ann := ms.map (annotateMatch link_pid)
  let filtered := ann.filter pidMatchedFlag
  let kept := if !filtered.isEmpty then filtered else []
  stableSort sortKeyLe kept

/-- The per-step result record appended by `correlate` (dict keys as
structure fields; `executed_at` carries the instant whose ISO rendering
the source stores). -/
structure StepResult where
  link_id : String
  paw : String
  ability_name : Val
  technique_id : Val
  executed_at : Option Int
  detected : Bool
  match_count : Nat
  pid : Val
  pid_match_count : Nat
  confidence : ℚ
  «matches» : List Val
deriving Repr

/-- The loop body of `correlate` for one link: search (when technique
id and timestamp are truthy), PID-tighten (when `matches and link_pid`
is truthy), then count, score and package.  The body never raises in
this model, matching the defensive source (its per-link `except` arm is
therefore dead and not reproduced). -/
def correlateStep (client : Client) (l : Link) : StepResult :=
  let ms0 := stepCandidates client l
  let ms1 := if !ms0.isEmpty && l.pid.truthy then pidPhase l.pid ms0 else ms0
  { link_id := l.id.pyStr
    paw := l.paw.pyStr
    ability_name := pyOr l.ability_name (.str "")
    technique_id := pyOr l.technique_id (.str "")
    executed_at := stepTsEpoch l
    detected := !ms1.isEmpty
    match_count := ms1.length
    pid := l.pid
    pid_match_count := (ms1.filter pidMatchedFlag).length
    confidence := calculate_confidence ms1 l.pid
    «matches» := ms1 }

/-- `IntegrationEngine.correlate(operation)`: the per-link loop over
the operation chain (an empty chain yields `[]`). -/
def correlate (client : Client) (chain : List Link) : List StepResult :=
  chain.map (correlateStep client)

/-- Decidable equality on `Except`, for concrete evaluations. -/
instance {ε α : Type} [DecidableEq ε] [DecidableEq α] : DecidableEq (Except ε α) := fun x y =>
  match x, y with
  | .ok a, .ok b =>
    if h : a = b then .isTrue (congrArg Except.ok h)
    else .isFalse (fun e => h (Except.ok.inj e))
  | .error a, .error b =>
    if h : a = b then .isTrue (congrArg Except.error h)
    else .isFalse (fun e => h (Except.error.inj e))
  | .ok _, .error _ => .isFalse (fun e => Except.noConfusion e)
  | .error _, .ok _ => .isFalse (fun e => Except.noConfusion e)

/-! ## Technique extraction and coverage (`coverage.py`) -/

/-- The loop-body filter of `_mitre_ids_from_source`'s normalization:
keep a collected value whose stripped form is nonempty and starts with
`T`/`t` (`s and s[0].upper() == 'T'`). -/
def isTechLike (s : String) : Bool :=
  let t := pyStrip s
  t ≠ "" && pyUpper (String.mk (t.data.take 1)) = "T"

/-- `s.strip().upper().replace('TECHNIQUE/', '')` — the normalized form
added to the result set. -/
def normTid (s : String) : String := pyReplace (pyUpper (pyStrip s)) "TECHNIQUE/" ""

/-- Normalization pass over the collected raw values. -/
def normSet (out : Finset String) : Finset String :=
  (out.filter (fun s => isTechLike s)).image normTid

/-- One collection step (`out.update(str(x) for x in v if x)` for a
list, `out.add(str(v))` for a truthy scalar). -/
def addIdVals (v : Val) (acc : Finset String) : Finset String :=
  match v with
  | .list xs => acc ∪ ((xs.filter Val.truthy).map Val.pyStr).toFinset
  | v => if v.truthy then insert v.pyStr acc else acc

/-- `_mitre_ids_from_source(source)`: collect technique ids from the
nested `data.mitre.id` / `rule.mitre.id` paths and the flattened
`'data.mitre.id'` / `'rule.mitre.id'` / `'mitre.id'` keys, then
normalize.  `Except.error` is a raised `AttributeError`: `source`, a
truthy `source['data']`/`source['rule']`, or a truthy nested `mitre`
node that is not a dict makes the corresponding `.get` raise (the
`or {}` guards only replace *falsy* values). -/
def mitre_ids_from_source (source : Val) : Except Unit (Finset String) := do
  let dm0 ← source.getE "data"
  let dmv ← (pyOr dm0 (.dict [])).getE "mitre"
  let data_mitre := pyOr dmv (.dict [])
  let rm0 ← source.getE "rule"
  let rmv ← (pyOr rm0 (.dict [])).getE "mitre"
  let rule_mitre := pyOr rmv (.dict [])
  let v1 ← data_mitre.getE "id"
  let v2 ← rule_mitre.getE "id"
  let f1 ← source.getE "data.mitre.id"
  let f2 ← source.getE "rule.mitre.id"
  let f3 ← source.getE "mitre.id"
  return normSet (addIdVals f3 (addIdVals f2 (addIdVals f1 (addIdVals v2 (addIdVals v1 ∅)))))

/-- The values contributed by one extraction path: every truthy element
of a list, a truthy scalar as a singleton, nothing otherwise. -/
def pathIdValues (v : Val) : List String :=
  match v with
  | .list xs => (xs.filter Val.truthy).map Val.pyStr
  | v => if v.truthy then [v.pyStr] else []

/-- The technique-id extraction described by the spec: the normalized
**union** of the values found across every known path (nested
`data.mitre.id` and `rule.mitre.id`, flattened `'data.mitre.id'`,
`'rule.mitre.id'`, `'mitre.id'`), a non-dict intermediate node treated
as absent.  Stated separately from `mitre_ids_from_source` so the two
can be compared. -/
def specTechniqueUnion (source : Val) : Finset String :=
  let dm := pyOr ((pyOr (source.get "data") (.dict [])).get "mitre") (.dict [])
  let rm := pyOr ((pyOr (source.get "rule") (.dict [])).get "mitre") (.dict [])
  normSet ((((pathIdValues (dm.get "id")).toFinset ∪ (pathIdValues (rm.get "id")).toFinset
    ∪ (pathIdValues (source.get "data.mitre.id")).toFinset)
    ∪ (pathIdValues (source.get "rule.mitre.id")).toFinset)
    ∪ (pathIdValues (source.get "mitre.id")).toFinset)

/-- `t = link.get('technique_id') or (link.get('ability') or {}).get('technique_id')
or (link.get('rule', {}).get('mitre') or {}).get('id')` with Python
short-circuiting (later accessors — and their possible
`AttributeError`s — are reached only when the earlier ones are falsy). -/
def linkTechniqueVal (link : Val) : Except Unit Val := do
  let t1 ← link.getE "technique_id"
  if t1.truthy then return t1
  let ab ← link.getE "ability"
  let t2 ← (pyOr ab (.dict [])).getE "technique_id"
  if t2.truthy then return t2
  let mv ← (link.getD "rule" (.dict [])).getE "mitre"
  (pyOr mv (.dict [])).getE "id"

/-- `_extract_operation_techniques(chain)`: union of each link's
technique value (all elements of a list, the stringified scalar
otherwise) — note: **no** `T`-normalization on this side. -/
def extract_operation_techniques (chain : List Val) : Except Unit (Finset String) :=
  go chain ∅
where
  go : List Val → Finset String → Except Unit (Finset String)
    | [], acc => .ok acc
    | link :: rest, acc => do
      let t ← linkTechniqueVal link
      go rest (addIdVals t acc)

/-- `sorted(tids) if tids else []` as the `technique_ids` value. -/
def techniqueIdsVal (tids : Finset String) : Val :=
  .list ((tids.sort (· ≤ ·)).map Val.str)

/-- `record = dict(alert or {})`: a shallow copy — raises `TypeError`
on a truthy non-dict argument. -/
def dictCopy (alert : Val) : Except Unit Val :=
  match pyOr alert (.dict []) with
  | .dict kvs => .ok (Val.dict kvs)
  | _ => .error ()

/-- The agent block of `_prepare_alert`: when `record.get('agent') or
{}` is a (truthy) dict whose name is a string with a nonempty
`strip().lower()`, the lowered name is written back (`agent['name'] =
nm; record['agent'] = agent`); a non-string name raises inside the
block's own `try` and is absorbed, leaving the record unchanged. -/
def normalizeAgentRecord (record : Val) : Val :=
  match record.get "agent" with
  | .dict (a :: as) =>
    match pyOr ((Val.dict (a :: as)).get "name") (.str "") with
    | .str s =>
      let nm := pyLower (pyStrip s)
      if nm ≠ "" then record.set "agent" ((Val.dict (a :: as)).set "name" (.str nm))
      else record
    | _ => record
  | _ => record

/-- `_prepare_alert(alert, fallback_tid)`: shallow-copy the alert
(`dict(alert or {})` — raises on a truthy non-dict), lower-case a
nonempty agent name (its own `try` absorbs a non-string name), extract
technique ids (may raise, see `mitre_ids_from_source`), substitute the
fallback technique when none were found, and attach the sorted
`technique_ids` list.  Returns `(record, tids)`. -/
def prepare_alert (alert : Val) (fallback_tid : Val) : Except Unit (Val × Finset String) := do
  let record ← dictCopy alert
  let record := normalizeAgentRecord record
  let tids0 ← mitre_ids_from_source record
  let tids := if tids0 = ∅ ∧ fallback_tid.truthy then {fallback_tid.pyStr} else tids0
  return (record.set "technique_ids" (techniqueIdsVal tids), tids)

/-- The state of the **input** alert after `_prepare_alert` returns.
`dict(alert)` is a *shallow* copy, so `agent = record.get('agent')`
aliases the caller's nested agent dict and `agent['name'] = nm` writes
through to it: a dict alert is transformed exactly as the copy is
(`normalizeAgentRecord`), while a falsy or non-dict alert is left
untouched (the copy starts from a fresh `{}`, or the call raises before
mutating). -/
def prepare_alert_input_after (alert : Val) : Val :=
  match alert with
  | .dict kvs => normalizeAgentRecord (.dict kvs)
  | v => v

/-- The mutable locals of `compute_coverage` that the representative
helpers update: `representative_alerts` (insertion-ordered) and
`detected_tids`. -/
structure StoreState where
  reps : List (String × Val)
  det : Finset String

/-- Is a key already present among the representatives? -/
def repsHasKey (reps : List (String × Val)) (k : String) : Bool :=
  reps.any (fun p => p.1 = k)

/-- `'|'.join(record['technique_ids'])`. -/
def joinPipe (xs : List Val) : String := String.intercalate "|" (xs.map Val.pyStr)

/-- `_store_representative(alert, key_hint=..., fallback_tid=...)`:
prepare the alert, accumulate its technique ids, and keep the first
record per key (the key hint, else `tech:<joined ids>`, else a
positional `alert:<n>` fallback). -/
def store_representative (st : StoreState) (alert : Val) (key_hint : String)
    (fallback_tid : Val) : Except Unit StoreState := do
  let (record, tids) ← prepare_alert alert fallback_tid
  let det := st.det ∪ tids
  let key :=
    if key_hint ≠ "" then key_hint
    else
      match record.get "technique_ids" with
      | .list (x :: xs) => "tech:" ++ joinPipe (x :: xs)
      | _ => "alert:" ++ toString st.reps.length
  let reps := if repsHasKey st.reps key then st.reps else st.reps ++ [(key, record)]
  return ⟨reps, det⟩

/-- The `for match in matches[1:]` tail loop of the engine-results
analysis: only `detected_tids` is updated; a raised error aborts the
loop with the state reached so far (`true` = raised). -/
def procTail (st : StoreState) (tid : Val) : List Val → StoreState × Bool
  | [] => (st, false)
  | m :: ms =>
    match prepare_alert m tid with
    | .error _ => (st, true)
    | .ok (_, tids) => procTail ⟨st.reps, st.det ∪ tids⟩ tid ms

/-- The `for result in engine_result` loop: for each step with matches,
store the first match under the `link:<link_id>` key and accumulate
technique ids from the rest.  A raised error stops the loop and reports
`true` (the enclosing `except` then sets `engine_result = None`), with
all updates made before the raise preserved — Python mutates these
locals in place. -/
def procResults (st : StoreState) : List StepResult → StoreState × Bool
  | [] => (st, false)
  | r :: rs =>
    match r.«matches» with
    | [] => procResults st rs
    | m :: ms =>
      let key_hint := if r.link_id ≠ "" then "link:" ++ r.link_id else ""
      match store_representative st m key_hint r.technique_id with
      | .error _ => (st, true)
      | .ok st1 =>
        match procTail st1 r.technique_id ms with
        | (st2, true) => (st2, true)
        | (st2, false) => procResults st2 rs

/-- The fallback loop `for a in alerts: _store_representative(a)` —
errors here are **not** caught and abort `compute_coverage`. -/
def foldStore (st : StoreState) : List Val → Except Unit StoreState
  | [] => .ok st
  | a :: as => do foldStore (← store_representative st a "" .none) as

/-- `round((num/den) * 100.0, 2)` as an integer count of hundredths
(half rounds up; the source rounds a binary double, whose exact-tie
behavior is outside this model).  `den = 0` is never reached by the
guarded callers. -/
def rateHundredths (num den : Nat) : Nat := (2 * (num * 10000) + den) / (2 * den)

/-- The serialized two-decimal detection rate. -/
def mkRate (num den : Nat) : ℚ := (rateHundredths num den : ℚ) / 100

/-- `int((end - start).total_seconds())`: whole seconds of a
microsecond difference, truncated toward zero. -/
def truncDivSec (dus : Int) : Int :=
  if 0 ≤ dus then dus / 1000000 else -((-dus) / 1000000)

/-- `timedelta(hours=3)` in microseconds. -/
def default_window : Int := 10800000000

/-- The start/end resolution at the top of `compute_coverage`: a
missing end is start + 3h, a missing start is end − 3h, and a missing
range is `[now − 3h, now]`. -/
def resolveRange (start stop : Option Int) (now : Int) : Int × Int :=
  match start, stop with
  | some s, Option.none => (s, s + default_window)
  | Option.none, some e => (e - default_window, e)
  | Option.none, Option.none => (now - default_window, now)
  | some s, some e => (s, e)

/-- The operation argument of `compute_coverage`, after the
`_maybe_to_utc` parses of its `start`/`end` (modelled separately by
`maybe_to_utc`; a parse failure aborts the call before anything else
happens).  `opId`/`opName` stand for the resolved
`operation.get('id') or operation.get('operation_id')` and
`operation.get('name') or ''`. -/
structure Operation where
  opId : Val := .none
  opName : Val := .str ""
  start : Option Int := Option.none
  stop : Option Int := Option.none
  chain : List Val := []

/-- The response dict of `compute_coverage` (dict keys as fields; the
`correlation` sub-dict is inlined; instants and technique sets carry
the values whose ISO / sorted-list renderings are serialized). -/
structure Report where
  success : Bool
  operation_id : Val
  operation_name : Val
  start_time : Option Int
  end_time : Option Int
  duration_seconds : Option Int
  attack_steps : Nat
  detected_steps : Nat
  total_alerts : Nat
  total_matches : Nat
  detection_rate : ℚ
  total_techniques : Nat
  detected_techniques : Nat
  all_operation_techniques : Finset String
  all_detected_techniques : Finset String
  matched_techniques : Finset String
  undetected_techniques : Nat
  undetected_techniques_list : Finset String
  alerts_matched : List Val

/-- The `try`-block statistics: `attack_steps`, `detected_steps`,
`total_matches`, the representative/detected-technique state after the
engine-results analysis, and whether the guarded block ended raising
(so that `engine_result` was reset to `None`): true when the
engine-construction/`correlate` prefix itself raised (`Option.none`
outcome) or when the representative loop raised mid-way.  Statistics
assigned before a mid-loop raise are preserved, as the source mutates
those locals in place. -/
def engineStats (engineOutcome : Option (List StepResult)) :
    Nat × Nat × Nat × StoreState × Bool :=
  match engineOutcome with
  | Option.none => (0, 0, 0, (⟨[], ∅⟩ : StoreState), true)
  | some rs =>
    let pr := procResults ⟨[], ∅⟩ rs
    (rs.length, (rs.filter (fun r => r.detected)).length,
     (rs.map (fun r => r.match_count)).sum, pr.1, pr.2)

/-- The detection-rate block of `compute_coverage` (sections 3 and the
"Ensure" fix-up): `(detection_rate, matched, undetected)`.  With
`attack_steps > 0` the rate is step-level and the sets are the ensure
block's; otherwise the rate is technique-level over a nonempty
operation-technique set, and everything is zero/empty when that set is
empty — no division happens in either guarded branch. -/
def rateAndSets (attack_steps detected_steps : Nat) (opTechs det : Finset String) :
    ℚ × Finset String × Finset String :=
  if attack_steps > 0 then
    (mkRate detected_steps attack_steps,
     if opTechs ≠ ∅ then opTechs ∩ det else ∅,
     if opTechs ≠ ∅ then opTechs \ (opTechs ∩ det) else ∅)
  else if opTechs ≠ ∅ then
    (mkRate (opTechs ∩ det).card opTechs.card, opTechs ∩ det, opTechs \ (opTechs ∩ det))
  else ((0 : ℚ), ∅, ∅)

/-- The response dict assembled at the end of `compute_coverage`. -/
def assembleReport (op : Operation) (start stop : Int) (opTechs : Finset String)
    (attack_steps detected_steps total_matches : Nat) (st1 : StoreState) : Report :=
  let det := st1.det
  let rs := rateAndSets attack_steps detected_steps opTechs det
  let det_rate := rs.1
  let matchedB := rs.2.1
  let undetB := rs.2.2
  let enriched := st1.reps.map (fun p => p.2)
  { success := true
    operation_id := op.opId
    operation_name := op.opName
    start_time := some start
    end_time := some stop
    duration_seconds := some (truncDivSec (stop - start))
    attack_steps := attack_steps
    detected_steps := detected_steps
    total_alerts := enriched.length
    total_matches := total_matches
    detection_rate := det_rate
    total_techniques := opTechs.card
    detected_techniques := matchedB.card
    all_operation_techniques := opTechs
    all_detected_techniques := det
    matched_techniques := matchedB
    undetected_techniques := undetB.card
    undetected_techniques_list := undetB
    alerts_matched := enriched }

/-- `compute_coverage(operation, indexer)`.  The injected pieces:
`now` is `datetime.now(utc)`; `engineOutcome` is the outcome of the
engine-construction plus `engine.correlate(...)` prefix of the guarded
`try` block (`Option.none` when that prefix raised — missing client
library, connection setup failure, `_mk_link`'s `_to_utc` raising —
and `some results` when it returned); `fetched` is what the fallback
full-range `fetch_alerts` call returns, `Except.error` when it raises
(non-200 status or connection failure; this error is uncaught).
`_match_windows` hints are not modelled (absent on the operations
considered, so that loop body never runs).  The returned flag records
whether the fallback tier ran. -/
def computeCoverage (op : Operation) (now : Int)
    (engineOutcome : Option (List StepResult))
    (fetched : Except Unit (List Val)) : Except Unit (Report × Bool) := do
  let (start, stop) := resolveRange op.start op.stop now
  let opTechs ← extract_operation_techniques op.chain
  let (attack_steps, detected_steps, total_matches, st0, engineFailed) :=
    engineStats engineOutcome
  let fb : StoreState × Bool ←
    if engineFailed then do
      let alerts ← fetched
      let st' ← foldStore st0 alerts
      pure (st', true)
    else pure (st0, false)
  return (assembleReport op start stop opTechs attack_steps detected_steps total_matches fb.1,
          fb.2)

/-! ## Concrete documents, clients, links and operations used in the
concrete evaluations below -/

def exDocPid7 : Val := .dict [
  ("rule", .dict [("id", .str "100"), ("level", .int 7), ("description", .str "execution alert"),
                  ("mitre", .dict [("id", .str "T1059")])]),
  ("data", .dict [("audit", .dict [("pid", .int 7), ("ppid", .int 8)])]),
  ("@timestamp", .str "2024-01-01T00:10:00Z"),
  ("agent", .dict [("id", .str "001"), ("name", .str "HostA")])]

def exHitPid7 : Val := .dict [("_id", .str "doc1"), ("_source", exDocPid7)]

def exClientPid7 : Client := fun _ _ => .ok [exHitPid7]

def exLinkBase : Link :=
  { id := .str "L1", technique_id := .str "T1059", finish := .str "2024-01-01T00:00:00Z" }

def exLink0 : Link := { exLinkBase with pid := .int 0 }

def exLink4821 : Link := { exLinkBase with pid := .int 4821 }

def mkAuditDoc (pid ppid : Int) : Val := .dict [
  ("rule", .dict [("mitre", .dict [("id", .str "T1059")])]),
  ("data", .dict [("audit", .dict [("pid", .int pid), ("ppid", .int ppid)])]),
  ("@timestamp", .str "2024-01-01T00:10:00Z")]

def exClientSpecPair : Client := fun _ _ =>
  .ok [.dict [("_source", mkAuditDoc 9001 9001)], .dict [("_source", mkAuditDoc 4455 100)]]

def docU : Val := .dict [
  ("data", .dict [("mitre", .dict [("id", .str "T1082")])]),
  ("rule", .dict [("mitre", .dict [("id", .str "T1059")])])]

def hitU : Val := .dict [("_id", .str "u1"), ("_source", docU)]

def docL : Val := .dict [
  ("rule", .dict [("mitre", .dict [("id", .list [.str "T1059", .str "T1003"])])])]

def hitL : Val := .dict [("_id", .str "l1"), ("_source", docL)]

def alertMut : Val := .dict [
  ("agent", .dict [("id", .str "001"), ("name", .str "HostA")]),
  ("rule", .dict [("mitre", .dict [("id", .str "T1059")])])]

def alertMutAfter : Val := .dict [
  ("agent", .dict [("id", .str "001"), ("name", .str "hosta")]),
  ("rule", .dict [("mitre", .dict [("id", .str "T1059")])])]

def failingClient : Client := fun _ _ => .error ()

def emptyOpD : Operation := {}

def badRuleDoc : Val := .dict [("rule", .str "suspicious")]

def badRuleHit : Val := .dict [("_id", .str "b1"), ("_source", badRuleDoc)]

def linkC8 : Val := .dict [("technique_id", .str "T1082")]

def opC8 : Operation := { chain := [linkC8] }

def alertC8 : Val := .dict [("rule", .dict [("mitre", .dict [("id", .str "T1082")])])]

def linkEpoch : Link := { exLinkBase with finish := .str "1700000000" }

def opStart : Operation := { start := some 1000000 }

/-! ## Supporting lemmas -/

theorem lookupKV_setKV_same (kvs : List (String × Val)) (k : String) (x : Val) :
    lookupKV (setKV kvs k x) k = some x := by
  induction kvs with
  | nil => simp [setKV, lookupKV]
  | cons p rest ih =>
    obtain ⟨k', v⟩ := p
    by_cases h : k' = k <;> simp [setKV, lookupKV, h, ih]

theorem lookupKV_setKV_other (kvs : List (String × Val)) (k k' : String) (x : Val)
    (h : k' ≠ k) : lookupKV (setKV kvs k x) k' = lookupKV kvs k' := by
  have h' : ¬ k = k' := fun e => h e.symm
  induction kvs with
  | nil => simp [setKV, lookupKV, h']
  | cons p rest ih =>
    obtain ⟨k0, v⟩ := p
    by_cases h0 : k0 = k
    · subst h0
      simp [setKV, lookupKV, h']
    · simp [setKV, lookupKV, h0, ih]

theorem getD_set_self (v : Val) (h : v.isDict = true) (k : String) (x d : Val) :
    (v.set k x).getD k d = x := by
  cases v <;> simp_all [Val.isDict, Val.set, Val.getD, lookupKV_setKV_same]

theorem getD_set_diff (v : Val) (k k' : String) (x d : Val) (h : k' ≠ k)
    (hd : v.isDict = true) : (v.set k x).getD k' d = v.getD k' d := by
  cases v <;> simp_all [Val.isDict, Val.set, Val.getD, lookupKV_setKV_other _ _ _ _ h]

theorem isDict_set (v : Val) (k : String) (x : Val) : (v.set k x).isDict = v.isDict := by
  cases v <;> simp [Val.set, Val.isDict]

theorem annotateMatch_of_not_dict (p m : Val) (h : m.isDict = false) :
    annotateMatch p m = m := by
  cases m <;> simp_all [annotateMatch, Val.set, Val.isDict]

theorem isDict_annotate (p m : Val) : (annotateMatch p m).isDict = m.isDict := by
  unfold annotateMatch
  rw [isDict_set, isDict_set]

theorem pidMatchedFlag_annotate (p m : Val) (h : m.isDict = true) :
    pidMatchedFlag (annotateMatch p m) =
      (match_pid p (m.get "pid") (m.get "ppid")).1 := by
  unfold annotateMatch pidMatchedFlag
  rw [getD_set_diff _ _ _ _ _ (by decide) (by rw [isDict_set]; exact h)]
  rw [getD_set_self _ h]
  cases (match_pid p (m.get "pid") (m.get "ppid")).1 <;> simp [Val.truthy]

theorem get_annotate_type (p m : Val) (h : m.isDict = true) :
    (annotateMatch p m).get "pid_match_type" =
      (match_pid p (m.get "pid") (m.get "ppid")).2 := by
  unfold annotateMatch Val.get
  rw [getD_set_self _ (by rw [isDict_set]; exact h)]

theorem get_annotate_other (p m : Val) (k : String) (h1 : k ≠ "pid_matched")
    (h2 : k ≠ "pid_match_type") : (annotateMatch p m).get k = m.get k := by
  by_cases h : m.isDict = true
  · unfold annotateMatch Val.get
    rw [getD_set_diff _ _ _ _ _ h2 (by rw [isDict_set]; exact h)]
    rw [getD_set_diff _ _ _ _ _ h1 h]
  · rw [annotateMatch_of_not_dict _ _ (by simp_all)]

theorem match_pid_type_of_matched (p a b : Val) (h : (match_pid p a b).1 = true) :
    (match_pid p a b).2 = .str "pid" ∨ (match_pid p a b).2 = .str "ppid" := by
  unfold match_pid at *
  cases p <;> simp_all <;> split_ifs at * <;> simp_all

theorem match_pid_false (p a b : Val)
    (ha : ¬(a.truthy = true ∧ a.pyStr = p.pyStr))
    (hb : ¬(b.truthy = true ∧ b.pyStr = p.pyStr)) :
    (match_pid p a b).1 = false := by
  unfold match_pid
  cases p <;> dsimp only <;>
    first
    | rfl
    | (split_ifs with h1 h2
       · exact absurd (by simpa using h1) ha
       · exact absurd (by simpa using h2) hb
       · rfl)

theorem mem_insertStable (le : Val → Val → Bool) (x a : Val) (l : List Val) :
    a ∈ insertStable le x l ↔ a = x ∨ a ∈ l := by
  induction l with
  | nil => simp [insertStable]
  | cons y ys ih =>
    simp only [insertStable]
    by_cases h : le y x = true
    · rw [if_pos h]
      simp only [List.mem_cons, ih]
      tauto
    · rw [if_neg h]
      simp only [List.mem_cons]

theorem mem_stableSort_go (le : Val → Val → Bool) (a : Val) (xs acc : List Val) :
    a ∈ stableSort.go le xs acc ↔ a ∈ xs ∨ a ∈ acc := by
  induction xs generalizing acc with
  | nil => simp [stableSort.go]
  | cons x rest ih =>
    simp only [stableSort.go, ih, mem_insertStable, List.mem_cons]
    tauto

theorem mem_stableSort (le : Val → Val → Bool) (a : Val) (l : List Val) :
    a ∈ stableSort le l ↔ a ∈ l := by
  simp [stableSort, mem_stableSort_go]

theorem length_insertStable (le : Val → Val → Bool) (x : Val) (l : List Val) :
    (insertStable le x l).length = l.length + 1 := by
  induction l with
  | nil => simp [insertStable]
  | cons y ys ih =>
    by_cases h : le y x = true <;> simp [insertStable, h, ih]

theorem length_stableSort_go (le : Val → Val → Bool) (xs acc : List Val) :
    (stableSort.go le xs acc).length = xs.length + acc.length := by
  induction xs generalizing acc with
  | nil => simp [stableSort.go]
  | cons x rest ih =>
    simp [stableSort.go, ih, length_insertStable]
    omega

theorem length_stableSort (le : Val → Val → Bool) (l : List Val) :
    (stableSort le l).length = l.length := by
  simp [stableSort, length_stableSort_go]

theorem summarize_src_shape (hit src : Val) :
    (summarize_src hit src).isDict = true ∧
    (summarize_src hit src).getD "pid_matched" (.bool false) = .bool false ∧
    (summarize_src hit src).get "pid_match_type" = Val.none ∧
    (summarize_src hit src).get "data" = Val.none ∧
    (summarize_src hit src).get "rule" = Val.none ∧
    (summarize_src hit src).get "agent" = Val.none ∧
    (summarize_src hit src).truthy = true :=
  ⟨rfl, rfl, rfl, rfl, rfl, rfl, rfl⟩

theorem summarize_body_cases (hit : Val) :
    summarize_hit_body hit = .error () ∨ summarize_hit_body hit = .ok (Val.dict []) ∨
    ∃ src, summarize_hit_body hit = .ok (summarize_src hit src) := by
  unfold summarize_hit_body
  split
  · right; left; rfl
  · dsimp only
    split
    · left; rfl
    · right; right; exact ⟨_, rfl⟩

theorem summarize_shape (hit : Val) :
    (summarize_hit hit).isDict = true ∧
    (summarize_hit hit).getD "pid_matched" (.bool false) = .bool false ∧
    (summarize_hit hit).get "pid_match_type" = Val.none ∧
    (summarize_hit hit).get "data" = Val.none ∧
    (summarize_hit hit).get "rule" = Val.none ∧
    (summarize_hit hit).get "agent" = Val.none := by
  rcases summarize_body_cases hit with h | h | ⟨src, h⟩ <;>
    unfold summarize_hit <;> rw [h] <;> exact ⟨rfl, rfl, rfl, rfl, rfl, rfl⟩

theorem mem_search_is_summary (tid : Val) (ts : Option Int) (resp : Except Unit (List Val))
    (m : Val) (h : m ∈ search tid ts resp) : ∃ hit, m = summarize_hit hit := by
  unfold search at h
  split at h
  · simp at h
  · split at h
    · simp at h
    · cases resp with
      | error e => simp at h
      | ok hits =>
        obtain ⟨hm, -⟩ := List.mem_filter.mp h
        obtain ⟨hit, -, rfl⟩ := List.mem_map.mp hm
        exact ⟨hit, rfl⟩

theorem mem_stepCandidates_is_summary (client : Client) (l : Link) (m : Val)
    (h : m ∈ stepCandidates client l) : ∃ hit, m = summarize_hit hit := by
  unfold stepCandidates at h
  split at h
  · exact mem_search_is_summary _ _ _ _ h
  · simp at h

theorem mem_stepCandidates_isDict (client : Client) (l : Link) (m : Val)
    (h : m ∈ stepCandidates client l) : m.isDict = true := by
  obtain ⟨hit, rfl⟩ := mem_stepCandidates_is_summary client l m h
  exact (summarize_shape hit).1

/-- Definitional bridges for the per-step result record. -/
theorem correlateStep_matches_def (client : Client) (l : Link) :
    (correlateStep client l).«matches» =
      (if (!(stepCandidates client l).isEmpty && l.pid.truthy) = true
       then pidPhase l.pid (stepCandidates client l) else stepCandidates client l) := rfl

theorem correlateStep_match_count (client : Client) (l : Link) :
    (correlateStep client l).match_count = (correlateStep client l).«matches».length := rfl

theorem correlateStep_detected (client : Client) (l : Link) :
    (correlateStep client l).detected = !(correlateStep client l).«matches».isEmpty := rfl

theorem correlateStep_confidence (client : Client) (l : Link) :
    (correlateStep client l).confidence =
      calculate_confidence (correlateStep client l).«matches» l.pid := rfl

theorem pidPhase_empty_of_nomatch (p : Val) (ms : List Val)
    (h : ∀ m ∈ ms, (match_pid p (m.get "pid") (m.get "ppid")).1 = false)
    (hd : ∀ m ∈ ms, m.isDict = true) :
    pidPhase p ms = [] := by
  unfold pidPhase
  have hf : (ms.map (annotateMatch p)).filter pidMatchedFlag = [] := by
    rw [List.filter_eq_nil_iff]
    intro a ha
    obtain ⟨m, hm, rfl⟩ := List.mem_map.mp ha
    rw [pidMatchedFlag_annotate _ _ (hd m hm), h m hm]
    simp
  dsimp only
  rw [hf]
  rfl

theorem ok_bind {α β : Type} (a : α) (f : α → Except Unit β) :
    (Except.ok a >>= f) = f a := rfl

theorem error_bind {α β : Type} (e : Unit) (f : α → Except Unit β) :
    ((Except.error e : Except Unit α) >>= f) = .error e := rfl

theorem getE_eq_ok (kvs : List (String × Val)) (k : String) :
    (Val.dict kvs).getE k = .ok ((Val.dict kvs).get k) := rfl

theorem mitre_ids_ok (source : Val) (hd : source.isDict = true)
    (h1 : source.get "data" = Val.none) (h2 : source.get "rule" = Val.none) :
    ∃ s, mitre_ids_from_source source = .ok s := by
  cases source with
  | dict kvs =>
    unfold mitre_ids_from_source
    simp only [getE_eq_ok, ok_bind, h1, h2]
    exact ⟨_, rfl⟩
  | none => simp [Val.isDict] at hd
  | bool b => simp [Val.isDict] at hd
  | int n => simp [Val.isDict] at hd
  | float q => simp [Val.isDict] at hd
  | str s => simp [Val.isDict] at hd
  | dt n t => simp [Val.isDict] at hd
  | list xs => simp [Val.isDict] at hd

theorem calculate_confidence_formula (ms : List Val) (lp : Val)
    (h : (∀ m ∈ ms, pidMatchedFlag m = false ∧ m.get "pid_match_type" = Val.none) ∨
         (∀ m ∈ ms, pidMatchedFlag m = true)) :
    calculate_confidence ms lp =
      if ms.isEmpty then 0
      else if ms.any (fun m => m.get "pid_match_type" == Val.str "pid") then (9/10 : ℚ)
      else if ms.any (fun m => m.get "pid_match_type" == Val.str "ppid") then (4/5 : ℚ)
      else (1/2 : ℚ) := by
  unfold calculate_confidence
  by_cases he : ms.isEmpty = true
  · rw [if_pos he, if_pos he]
  · rw [if_neg he, if_neg he]
    dsimp only
    rcases h with hA | hB
    · have hfil : ms.filter pidMatchedFlag = [] :=
        List.filter_eq_nil_iff.mpr (fun m hm => by rw [(hA m hm).1]; simp)
      have h1 : ms.any (fun m => m.get "pid_match_type" == Val.str "pid") = false := by
        rw [List.any_eq_false]
        intro m hm
        rw [(hA m hm).2]
        decide
      have h2 : ms.any (fun m => m.get "pid_match_type" == Val.str "ppid") = false := by
        rw [List.any_eq_false]
        intro m hm
        rw [(hA m hm).2]
        decide
      rw [hfil, h1, h2]
      norm_num
    · have hfil : ms.filter pidMatchedFlag = ms := List.filter_eq_self.mpr hB
      rw [hfil]
      have hne : (!ms.isEmpty) = true := by simp [Bool.eq_false_iff.mpr he]
      rw [if_pos hne]
      by_cases h1 : ms.any (fun m => m.get "pid_match_type" == Val.str "pid") = true
      · rw [if_pos h1, if_pos h1]
        norm_num
      · rw [if_neg h1, if_neg h1]
        by_cases h2 : ms.any (fun m => m.get "pid_match_type" == Val.str "ppid") = true
        · rw [if_pos h2, if_pos h2]
          norm_num
        · rw [if_neg h2, if_neg h2]
          norm_num

theorem correlateStep_matches_shape (client : Client) (l : Link) :
    (∀ m ∈ (correlateStep client l).«matches»,
        pidMatchedFlag m = false ∧ m.get "pid_match_type" = Val.none) ∨
    (∀ m ∈ (correlateStep client l).«matches», pidMatchedFlag m = true) := by
  rw [correlateStep_matches_def]
  split
  · right
    intro m hm
    unfold pidPhase at hm
    dsimp only at hm
    rw [mem_stableSort] at hm
    split at hm
    · exact List.of_mem_filter hm
    · simp at hm
  · left
    intro m hm
    obtain ⟨hit, rfl⟩ := mem_stepCandidates_is_summary _ _ _ hm
    have s := summarize_shape hit
    constructor
    · unfold pidMatchedFlag
      rw [s.2.1]
      rfl
    · exact s.2.2.1

theorem calculate_confidence_le_one (ms : List Val) (lp : Val) :
    calculate_confidence ms lp ≤ 1 := by
  unfold calculate_confidence
  split
  · norm_num
  · exact min_le_right _ _

theorem pyOr_isDict (v w : Val) (hv : v.isDict = true) (hw : w.isDict = true) :
    (pyOr v w).isDict = true := by
  unfold pyOr
  split <;> assumption

theorem dictCopy_ok (v : Val) (h : v.isDict = true) :
    dictCopy v = .ok (pyOr v (.dict [])) := by
  cases v with
  | dict kvs =>
    unfold dictCopy
    cases hp : pyOr (Val.dict kvs) (Val.dict []) <;>
      first
      | rfl
      | (exfalso
         revert hp
         unfold pyOr
         split <;> intro hp <;> cases hp)
  | _ => simp [Val.isDict] at h

theorem pyOr_dict_get (kvs : List (String × Val)) (k : String) :
    (pyOr (Val.dict kvs) (Val.dict [])).get k = (Val.dict kvs).get k := by
  unfold pyOr
  split
  · rfl
  · cases kvs with
    | nil => rfl
    | cons a as => simp [Val.truthy] at *

theorem normalizeAgent_isDict (record : Val) :
    (normalizeAgentRecord record).isDict = record.isDict := by
  unfold normalizeAgentRecord
  split
  · split
    · dsimp only
      split
      · rw [isDict_set]
      · rfl
    · rfl
  · rfl

theorem normalizeAgent_get_other (record : Val) (k : String) (h : k ≠ "agent") :
    (normalizeAgentRecord record).get k = record.get k := by
  cases record with
  | dict kvs =>
    unfold normalizeAgentRecord
    split
    · split
      · dsimp only
        split
        · exact getD_set_diff _ _ _ _ _ h rfl
        · rfl
      · rfl
    · rfl
  | _ =>
    unfold normalizeAgentRecord
    simp [Val.get, Val.getD]

theorem prepare_alert_ok (m tid : Val) (hd : m.isDict = true)
    (h1 : m.get "data" = Val.none) (h2 : m.get "rule" = Val.none) :
    ∃ out, prepare_alert m tid = .ok out := by
  cases m with
  | dict kvs =>
    unfold prepare_alert
    rw [dictCopy_ok (Val.dict kvs) rfl, ok_bind]
    have hrd : (normalizeAgentRecord (pyOr (Val.dict kvs) (Val.dict []))).isDict = true := by
      rw [normalizeAgent_isDict]
      exact pyOr_isDict _ _ rfl rfl
    have hr1 : (normalizeAgentRecord (pyOr (Val.dict kvs) (Val.dict []))).get "data" = Val.none := by
      rw [normalizeAgent_get_other _ _ (by decide), pyOr_dict_get]
      exact h1
    have hr2 : (normalizeAgentRecord (pyOr (Val.dict kvs) (Val.dict []))).get "rule" = Val.none := by
      rw [normalizeAgent_get_other _ _ (by decide), pyOr_dict_get]
      exact h2
    obtain ⟨s, hs⟩ := mitre_ids_ok _ hrd hr1 hr2
    dsimp only
    rw [hs, ok_bind]
    exact ⟨_, rfl⟩
  | _ => simp [Val.isDict] at hd

theorem store_representative_ok (st : StoreState) (m : Val) (kh : String) (tid : Val)
    (hd : m.isDict = true) (h1 : m.get "data" = Val.none) (h2 : m.get "rule" = Val.none) :
    ∃ st1, store_representative st m kh tid = .ok st1 := by
  obtain ⟨out, hout⟩ := prepare_alert_ok m tid hd h1 h2
  unfold store_representative
  rw [hout, ok_bind]
  exact ⟨_, rfl⟩



theorem mem_correlateStep_matches_safe (client : Client) (l : Link) (m : Val)
    (hm : m ∈ (correlateStep client l).«matches») :
    m.isDict = true ∧ m.get "data" = Val.none ∧ m.get "rule" = Val.none := by
  rw [correlateStep_matches_def] at hm
  have base : ∀ m0 ∈ stepCandidates client l,
      m0.isDict = true ∧ m0.get "data" = Val.none ∧ m0.get "rule" = Val.none := by
    intro m0 hm0
    obtain ⟨hit, rfl⟩ := mem_stepCandidates_is_summary _ _ _ hm0
    have s := summarize_shape hit
    exact ⟨s.1, s.2.2.2.1, s.2.2.2.2.1⟩
  split at hm
  · unfold pidPhase at hm
    dsimp only at hm
    rw [mem_stableSort] at hm
    split at hm
    · have hmm := List.mem_of_mem_filter hm
      obtain ⟨m0, hm0, rfl⟩ := List.mem_map.mp hmm
      obtain ⟨hd0, h10, h20⟩ := base m0 hm0
      refine ⟨?_, ?_, ?_⟩
      · rw [isDict_annotate]; exact hd0
      · rw [get_annotate_other _ _ _ (by decide) (by decide)]; exact h10
      · rw [get_annotate_other _ _ _ (by decide) (by decide)]; exact h20
    · simp at hm
  · exact base m hm

theorem procTail_no_err (tid : Val) (ms : List Val) (st : StoreState)
    (h : ∀ m ∈ ms, m.isDict = true ∧ m.get "data" = Val.none ∧ m.get "rule" = Val.none) :
    (procTail st tid ms).2 = false := by
  induction ms generalizing st with
  | nil => rfl
  | cons m rest ih =>
    obtain ⟨hd, h1, h2⟩ := h m (List.mem_cons_self m rest)
    obtain ⟨out, hout⟩ := prepare_alert_ok m tid hd h1 h2
    unfold procTail
    rw [hout]
    exact ih _ (fun x hx => h x (List.mem_cons_of_mem _ hx))

theorem procResults_no_err (rs : List StepResult) (st : StoreState)
    (h : ∀ r ∈ rs, ∀ m ∈ r.«matches»,
      m.isDict = true ∧ m.get "data" = Val.none ∧ m.get "rule" = Val.none) :
    (procResults st rs).2 = false := by
  induction rs generalizing st with
  | nil => rfl
  | cons r rest ih =>
    unfold procResults
    cases hms : r.«matches» with
    | nil => exact ih _ (fun x hx => h x (List.mem_cons_of_mem _ hx))
    | cons m ms =>
      have hr := h r (List.mem_cons_self r rest)
      rw [hms] at hr
      obtain ⟨hd, h1, h2⟩ := hr m (List.mem_cons_self m ms)
      obtain ⟨st1, hst1⟩ := store_representative_ok st m
        (if r.link_id ≠ "" then "link:" ++ r.link_id else "") r.technique_id hd h1 h2
      dsimp only
      rw [hst1]
      have htail : (procTail st1 r.technique_id ms).2 = false :=
        procTail_no_err _ _ _ (fun x hx => hr x (List.mem_cons_of_mem _ hx))
      cases hpt : procTail st1 r.technique_id ms with
      | mk st2 errb =>
        rw [hpt] at htail
        dsimp only at htail
        subst htail
        dsimp only
        rw [hpt]
        exact ih _ (fun x hx => h x (List.mem_cons_of_mem _ hx))



theorem pure_eq_ok {α : Type} (a : α) : (pure a : Except Unit α) = .ok a := rfl

theorem map_error {α β : Type} (f : α → β) (e : Unit) :
    (f <$> (Except.error e : Except Unit α)) = (Except.error e : Except Unit β) := rfl

theorem computeCoverage_inv (op : Operation) (now : Int) (eo : Option (List StepResult))
    (fetched : Except Unit (List Val)) (r : Report) (b : Bool)
    (h : computeCoverage op now eo fetched = .ok (r, b)) :
    ∃ opTechs st1,
      extract_operation_techniques op.chain = .ok opTechs ∧
      r = assembleReport op (resolveRange op.start op.stop now).1
            (resolveRange op.start op.stop now).2 opTechs
            (engineStats eo).1 (engineStats eo).2.1 (engineStats eo).2.2.1 st1 ∧
      b = (engineStats eo).2.2.2.2 ∧
      (b = false → st1 = (engineStats eo).2.2.2.1) := by
  unfold computeCoverage at h
  rcases hRR : resolveRange op.start op.stop now with ⟨s, e⟩
  rw [hRR] at h
  dsimp only at h
  cases hE : extract_operation_techniques op.chain with
  | error u => rw [hE, error_bind] at h; cases h
  | ok ot =>
    rw [hE, ok_bind] at h
    rcases hES : engineStats eo with ⟨A, D, T, st0, ef⟩
    rw [hES] at h
    dsimp only at h
    cases ef with
    | false =>
      rw [pure_eq_ok, ok_bind, pure_eq_ok] at h
      injection h with h'
      injection h' with hr hb
      exact ⟨ot, st0, rfl, hr.symm, hb.symm, fun _ => rfl⟩
    | true =>
      cases fetched with
      | error u =>
        rw [error_bind] at h
        exact Except.noConfusion h
      | ok alerts =>
        cases hFS : foldStore st0 alerts with
        | error u =>
          rw [if_pos rfl, ok_bind, hFS, error_bind] at h
          exact Except.noConfusion h
        | ok st1 =>
          rw [if_pos rfl, ok_bind, hFS, ok_bind, pure_eq_ok, ok_bind, pure_eq_ok] at h
          injection h with h'
          injection h' with hr hb
          refine ⟨ot, st1, rfl, hr.symm, hb.symm, fun hb0 => ?_⟩
          rw [← hb] at hb0
          exact Bool.noConfusion hb0



theorem assembleReport_detection_rate (op : Operation) (s e : Int) (ot : Finset String)
    (A D T : Nat) (st : StoreState) :
    (assembleReport op s e ot A D T st).detection_rate = (rateAndSets A D ot st.det).1 := rfl

theorem assembleReport_fields (op : Operation) (s e : Int) (ot : Finset String)
    (A D T : Nat) (st : StoreState) :
    (assembleReport op s e ot A D T st).attack_steps = A ∧
    (assembleReport op s e ot A D T st).detected_steps = D ∧
    (assembleReport op s e ot A D T st).start_time = some s ∧
    (assembleReport op s e ot A D T st).end_time = some e ∧
    (assembleReport op s e ot A D T st).duration_seconds = some (truncDivSec (e - s)) ∧
    (assembleReport op s e ot A D T st).total_techniques = ot.card ∧
    (assembleReport op s e ot A D T st).all_operation_techniques = ot ∧
    (assembleReport op s e ot A D T st).matched_techniques = (rateAndSets A D ot st.det).2.1 ∧
    (assembleReport op s e ot A D T st).undetected_techniques_list = (rateAndSets A D ot st.det).2.2 ∧
    (assembleReport op s e ot A D T st).all_detected_techniques = st.det :=
  ⟨rfl, rfl, rfl, rfl, rfl, rfl, rfl, rfl, rfl, rfl⟩

theorem engineStats_detected_le (eo : Option (List StepResult)) :
    (engineStats eo).2.1 ≤ (engineStats eo).1 := by
  cases eo with
  | none => exact Nat.le_refl 0
  | some rs =>
    unfold engineStats
    dsimp only
    exact List.length_filter_le _ _

theorem mkRate_zero (d : Nat) : mkRate 0 d = 0 := by
  unfold mkRate rateHundredths
  rcases Nat.eq_zero_or_pos d with hd | hd
  · subst hd
    norm_num
  · rw [Nat.div_eq_of_lt (by omega)]
    norm_num

theorem rateHundredths_le (n d : Nat) (hd : 0 < d) (hn : n ≤ d) :
    rateHundredths n d ≤ 10000 := by
  unfold rateHundredths
  have h2d : 0 < 2 * d := by omega
  have : 2 * (n * 10000) + d < 10001 * (2 * d) := by nlinarith
  have := (Nat.div_lt_iff_lt_mul h2d).mpr this
  omega

theorem mkRate_bounds (n d : Nat) (hd : 0 < d) (hn : n ≤ d) :
    0 ≤ mkRate n d ∧ mkRate n d ≤ 100 := by
  constructor
  · unfold mkRate
    positivity
  · unfold mkRate
    have h := rateHundredths_le n d hd hn
    have h' : (rateHundredths n d : ℚ) ≤ 10000 := by exact_mod_cast h
    linarith

theorem rateAndSets_rate_bounds (A D : Nat) (hDA : D ≤ A) (ot det : Finset String) :
    0 ≤ (rateAndSets A D ot det).1 ∧ (rateAndSets A D ot det).1 ≤ 100 := by
  unfold rateAndSets
  split_ifs with h1 h2 h3
  · exact mkRate_bounds D A h1 hDA
  · exact mkRate_bounds D A h1 hDA
  · refine mkRate_bounds _ _ ?_ ?_
    · exact Finset.card_pos.mpr (Finset.nonempty_iff_ne_empty.mpr h3)
    · exact Finset.card_le_card (Finset.inter_subset_left)
  · norm_num

theorem rateAndSets_two_decimals (A D : Nat) (ot det : Finset String) :
    ∃ k : ℤ, (rateAndSets A D ot det).1 = (k : ℚ) / 100 := by
  unfold rateAndSets
  split_ifs
  · exact ⟨rateHundredths D A, rfl⟩
  · exact ⟨rateHundredths D A, rfl⟩
  · exact ⟨rateHundredths (ot ∩ det).card ot.card, rfl⟩
  · exact ⟨0, by norm_num⟩

theorem rateAndSets_union_disjoint (A D : Nat) (ot det : Finset String) :
    (rateAndSets A D ot det).2.1 ∪ (rateAndSets A D ot det).2.2 = ot ∧
    Disjoint (rateAndSets A D ot det).2.1 (rateAndSets A D ot det).2.2 := by
  unfold rateAndSets
  split_ifs with h1 h2 h3
  · exact ⟨Finset.union_sdiff_of_subset Finset.inter_subset_left, Finset.disjoint_sdiff⟩
  · constructor
    · simp_all
    · simp
  · exact ⟨Finset.union_sdiff_of_subset Finset.inter_subset_left, Finset.disjoint_sdiff⟩
  · constructor
    · simp_all
    · simp

/-- Bridge: the per-candidate no-overlap test in boolean form implies
`_match_pid` reports no match. -/
theorem match_pid_false_bool (p a b : Val)
    (h : (!(a.truthy && (a.pyStr == p.pyStr)) && !(b.truthy && (b.pyStr == p.pyStr))) = true) :
    (match_pid p a b).1 = false := by
  rw [Bool.and_eq_true] at h
  have h1 := h.1
  have h2 := h.2
  apply match_pid_false
  · intro hc
    rw [Bool.not_eq_true', Bool.and_eq_false_iff] at h1
    rcases h1 with hx | hx
    · rw [hc.1] at hx; exact Bool.noConfusion hx
    · rw [beq_eq_false_iff_ne] at hx; exact hx hc.2
  · intro hc
    rw [Bool.not_eq_true', Bool.and_eq_false_iff] at h2
    rcases h2 with hx | hx
    · rw [hc.1] at hx; exact Bool.noConfusion hx
    · rw [beq_eq_false_iff_ne] at hx; exact hx hc.2

/-- A dict receiver's checked `.get` never raises and agrees with the
plain `.get`. -/
theorem getE_ok_of_isDict (v : Val) (h : v.isDict = true) (k : String) :
    v.getE k = .ok (v.get k) := by
  cases v <;> first | rfl | simp [Val.isDict] at h

/-- One collection step of `_mitre_ids_from_source` adds exactly the
path's contributed values. -/
theorem addIdVals_eq_union (v : Val) (acc : Finset String) :
    addIdVals v acc = acc ∪ (pathIdValues v).toFinset := by
  have hscalar : ∀ (b : Bool) (s : String),
      (if b then insert s acc else acc) = acc ∪ (if b then [s] else []).toFinset := by
    intro b s
    cases b
    · simp
    · simp [Finset.insert_eq, Finset.union_comm]
  cases v with
  | list xs => rfl
  | none => exact hscalar (Val.none).truthy (Val.none).pyStr
  | bool b => exact hscalar (Val.bool b).truthy (Val.bool b).pyStr
  | int n => exact hscalar (Val.int n).truthy (Val.int n).pyStr
  | float q => exact hscalar (Val.float q).truthy (Val.float q).pyStr
  | str s => exact hscalar (Val.str s).truthy (Val.str s).pyStr
  | dt n t => exact hscalar (Val.dt n t).truthy (Val.dt n t).pyStr
  | dict kvs => exact hscalar (Val.dict kvs).truthy (Val.dict kvs).pyStr

/-- Per-step query failure is absorbed: `_search` catches and returns
no hits. -/
theorem search_error (tid : Val) (ts : Option Int) :
    search tid ts (.error ()) = [] := by
  unfold search
  split_ifs <;> rfl

/-- Rate of the empty engine result over an empty detected set. -/
theorem rateAndSets_zero_zero (ot : Finset String) :
    (rateAndSets 0 0 ot ∅).1 = 0 := by
  unfold rateAndSets
  rw [if_neg (by norm_num)]
  split_ifs with h2
  · rw [Finset.inter_empty, Finset.card_empty]
    exact mkRate_zero _
  · rfl

/-- Rate over an empty operation-technique set with no steps. -/
theorem rateAndSets_empty_ot (D : Nat) (det : Finset String) :
    (rateAndSets 0 D ∅ det).1 = 0 := by
  unfold rateAndSets
  rw [if_neg (by norm_num), if_neg (by simp)]

/-! ## The claims -/

/-- C1 counterexample: the step carries the process id `0` (a value,
not `None`), no candidate alert has pid or ppid stringifying to `0`,
and a technique/time-matched candidate exists — yet the result keeps
the match (`match_count = 1`, `detected = true`): `pid=0` is falsy in
Python, so `correlate` skips the PID filter entirely. -/
theorem c1_counterexample :
    Link.pid exLink0 = Val.int 0 ∧
    Val.int 0 ≠ Val.none ∧
    ((stepCandidates exClientPid7 exLink0).all (fun m =>
      !((m.get "pid").truthy && ((m.get "pid").pyStr == (Link.pid exLink0).pyStr)) &&
      !((m.get "ppid").truthy && ((m.get "ppid").pyStr == (Link.pid exLink0).pyStr))) = true) ∧
    (stepCandidates exClientPid7 exLink0).length = 1 ∧
    (correlateStep exClientPid7 exLink0).match_count = 1 ∧
    (correlateStep exClientPid7 exLink0).detected = true := by
  refine ⟨rfl, fun h => Val.noConfusion h, ?_, ?_, ?_, ?_⟩ <;> decide

/-- C1 amended: for every step whose process id is *truthy*, if no
candidate alert's extracted pid or ppid (stringified) equals the step's
pid (stringified), the per-step correlation discards every candidate:
`match_count = 0` and `detected = false`. -/
theorem c1_pid_gate (client : Client) (l : Link)
    (hp : l.pid.truthy = true)
    (h : (stepCandidates client l).all (fun m =>
      !((m.get "pid").truthy && ((m.get "pid").pyStr == l.pid.pyStr)) &&
      !((m.get "ppid").truthy && ((m.get "ppid").pyStr == l.pid.pyStr))) = true) :
    (correlateStep client l).match_count = 0 ∧ (correlateStep client l).detected = false := by
  have hph : pidPhase l.pid (stepCandidates client l) = [] :=
    pidPhase_empty_of_nomatch _ _
      (fun m hm => match_pid_false_bool _ _ _ (List.all_eq_true.mp h m hm))
      (fun m hm => mem_stepCandidates_isDict client l m hm)
  rw [correlateStep_match_count, correlateStep_detected, correlateStep_matches_def]
  by_cases hem : (stepCandidates client l).isEmpty = true
  · have hc : stepCandidates client l = [] := by
      cases hcc : stepCandidates client l with
      | nil => rfl
      | cons a as => rw [hcc] at hem; simp at hem
    rw [hc]
    simp
  · have hf : (stepCandidates client l).isEmpty = false := Bool.eq_false_iff.mpr hem
    rw [hf, hp]
    simp only [Bool.not_false, Bool.and_self, if_true, hph]
    simp

/-- C1 witness: the spec's worked example — a step with pid 4821 and
two technique/time-window candidates whose (pid, ppid) are
(9001, 9001) and (4455, 100) — yields zero matches and not detected. -/
theorem c1_pid_gate_witness :
    (Link.pid exLink4821).truthy = true ∧
    (stepCandidates exClientSpecPair exLink4821).length = 2 ∧
    (correlateStep exClientSpecPair exLink4821).match_count = 0 ∧
    (correlateStep exClientSpecPair exLink4821).detected = false := by
  have h := c1_pid_gate exClientSpecPair exLink4821 (by decide) (by decide)
  exact ⟨by decide, by decide, h.1, h.2⟩

/-- C2: for every step result, the confidence is `0.0` when the
surviving match list is empty; otherwise `0.5`, plus `0.4` when some
surviving match has pid match type `pid`, else plus `0.3` when some
has `ppid`; and the value never exceeds `1.0`. -/
theorem c2_confidence (client : Client) (l : Link) :
    ((correlateStep client l).confidence =
      if (correlateStep client l).«matches».isEmpty then 0
      else if (correlateStep client l).«matches».any
             (fun m => m.get "pid_match_type" == Val.str "pid") then (1/2 + 2/5 : ℚ)
      else if (correlateStep client l).«matches».any
             (fun m => m.get "pid_match_type" == Val.str "ppid") then (1/2 + 3/10 : ℚ)
      else (1/2 : ℚ)) ∧
    (correlateStep client l).confidence ≤ 1 := by
  constructor
  · rw [correlateStep_confidence]
    have hf := calculate_confidence_formula (correlateStep client l).«matches» l.pid
      (correlateStep_matches_shape client l)
    rw [hf]
    norm_num
  · rw [correlateStep_confidence]
    exact calculate_confidence_le_one _ _

/-- C3 counterexample: on a document populating both `data.mitre.id`
(`T1082`) and `rule.mitre.id` (`T1059`), the engine summarizer records
only the first path's value; on a list-typed `rule.mitre.id` it records
only the first element.  The coverage-side extractor does return the
full union, so the claim holds only of that path. -/
theorem c3_counterexample :
    (summarize_src hitU docU).get "mitre.id" = Val.str "T1082" ∧
    mitre_ids_from_source docU = .ok ({"T1082", "T1059"} : Finset String) ∧
    (summarize_src hitL docL).get "mitre.id" = Val.str "T1059" ∧
    mitre_ids_from_source docL = .ok ({"T1059", "T1003"} : Finset String) := by
  refine ⟨by rfl, by decide, by rfl, by decide⟩

/-- C3 amended: the coverage-side extractor `_mitre_ids_from_source`
does return the normalized union over every known path (all elements of
list-typed values), for every source document whose intermediate nodes
are dicts after the falsy-replacement guards. -/
theorem c3_union (source : Val)
    (h0 : source.isDict = true)
    (h1 : (pyOr (source.get "data") (.dict [])).isDict = true)
    (h2 : (pyOr ((pyOr (source.get "data") (.dict [])).get "mitre") (.dict [])).isDict = true)
    (h3 : (pyOr (source.get "rule") (.dict [])).isDict = true)
    (h4 : (pyOr ((pyOr (source.get "rule") (.dict [])).get "mitre") (.dict [])).isDict = true) :
    mitre_ids_from_source source = .ok (specTechniqueUnion source) := by
  unfold mitre_ids_from_source
  rw [getE_ok_of_isDict source h0, ok_bind]
  rw [getE_ok_of_isDict _ h1, ok_bind]
  dsimp only
  rw [getE_ok_of_isDict source h0, ok_bind]
  rw [getE_ok_of_isDict _ h3, ok_bind]
  try dsimp only
  rw [getE_ok_of_isDict _ h2, ok_bind]
  rw [getE_ok_of_isDict _ h4, ok_bind]
  rw [getE_ok_of_isDict source h0, ok_bind]
  rw [getE_ok_of_isDict source h0, ok_bind]
  rw [getE_ok_of_isDict source h0, ok_bind]
  unfold specTechniqueUnion
  dsimp only
  simp only [addIdVals_eq_union, Finset.empty_union]
  rfl

/-- C3 witness: the two-path document satisfies the dict-shape
hypotheses, and the extractor indeed returns the spec's union on it. -/
theorem c3_union_witness :
    docU.isDict = true ∧
    mitre_ids_from_source docU = .ok (specTechniqueUnion docU) :=
  ⟨by decide, c3_union docU (by decide) (by decide) (by decide) (by decide) (by decide)⟩

/-- C4 code_bug: `_prepare_alert` mutates its input.  `dict(alert)` is
a shallow copy, so the agent block writes the lowered name through the
shared nested dict: after a successful call on an alert whose agent
name is `"HostA"`, the caller's alert itself now carries
`agent.name = "hosta"`. -/
theorem c4_input_mutated :
    (∃ out, prepare_alert alertMut Val.none = .ok out) ∧
    prepare_alert_input_after alertMut = alertMutAfter ∧
    (alertMut.get "agent").get "name" = Val.str "HostA" ∧
    (alertMutAfter.get "agent").get "name" = Val.str "hosta" ∧
    alertMutAfter ≠ alertMut := by
  refine ⟨⟨_, by rfl⟩, by rfl, by rfl, by rfl, fun h => ?_⟩
  have h2 := congrArg (fun v => (v.get "agent").get "name") h
  dsimp only at h2
  have h3 : "hosta" = "HostA" := by
    have h4 : Val.str "hosta" = Val.str "HostA" := h2
    injection h4
  exact absurd h3 (by decide)

/-- C5 counterexample: a backend whose search fails for *every* query,
over a one-step chain — the engine still returns normally, so
`compute_coverage` keeps the primary tier (`used fallback = false`)
with `attack_steps = 1`, `detected_steps = 0`; the Coverage Fallback
tier is *not* entered on all-steps search failure, only on an engine
exception. -/
theorem c5_counterexample :
    (∀ tid ts, failingClient tid ts = .error ()) ∧
    ∃ r b, computeCoverage emptyOpD 0 (some (correlate failingClient [exLinkBase]))
        (.ok []) = .ok (r, b) ∧
      b = false ∧ r.attack_steps = 1 ∧ r.detected_steps = 0 := by
  exact ⟨fun _ _ => rfl, _, _, rfl, rfl, rfl, rfl⟩

/-- C5 amended: (i) a step whose search errors degrades to zero
matches and not detected; (ii) when the guarded engine prefix raised
(`engineOutcome = none`), the report that comes back is fallback-tier;
(iii) when the engine ran (`correlate` output, however empty its
matches), the report is primary-tier and counts every chain step. -/
theorem c5_degrade_and_fallback :
    (∀ (client : Client) (l : Link),
      client l.technique_id (stepTsEpoch l) = .error () →
      (correlateStep client l).«matches» = [] ∧
      (correlateStep client l).match_count = 0 ∧
      (correlateStep client l).detected = false) ∧
    (∀ (op : Operation) (now : Int) (fetched : Except Unit (List Val)) (r : Report) (b : Bool),
      computeCoverage op now Option.none fetched = .ok (r, b) → b = true) ∧
    (∀ (op : Operation) (now : Int) (client : Client) (chain : List Link)
       (fetched : Except Unit (List Val)) (r : Report) (b : Bool),
      computeCoverage op now (some (correlate client chain)) fetched = .ok (r, b) →
      b = false ∧ r.attack_steps = chain.length) := by
  refine ⟨?_, ?_, ?_⟩
  · intro client l h
    have hsc : stepCandidates client l = [] := by
      unfold stepCandidates
      split
      · rw [h]
        exact search_error _ _
      · rfl
    have hm : (correlateStep client l).«matches» = [] := by
      rw [correlateStep_matches_def, hsc]
      rfl
    refine ⟨hm, ?_, ?_⟩
    · rw [correlateStep_match_count, hm]
      rfl
    · rw [correlateStep_detected, hm]
      rfl
  · intro op now fetched r b h
    obtain ⟨ot, st1, hOT, hr, hb, hb0⟩ := computeCoverage_inv op now _ fetched r b h
    exact hb
  · intro op now client chain fetched r b h
    obtain ⟨ot, st1, hOT, hr, hb, hb0⟩ := computeCoverage_inv op now _ fetched r b h
    have hsafe : ∀ res ∈ correlate client chain, ∀ m ∈ res.«matches»,
        m.isDict = true ∧ m.get "data" = Val.none ∧ m.get "rule" = Val.none := by
      intro res hres m hm
      obtain ⟨l, hl, rfl⟩ := List.mem_map.mp hres
      exact mem_correlateStep_matches_safe client l m hm
    have hbf : b = false := by
      rw [hb]
      exact procResults_no_err _ _ hsafe
    refine ⟨hbf, ?_⟩
    rw [hr]
    exact List.length_map _ _

/-- C5 witness: the degradation and both tier selections, at the
all-failing backend over the one-step chain (and, for the
engine-raised case, the empty operation). -/
theorem c5_degrade_and_fallback_witness :
    ((correlateStep failingClient exLinkBase).«matches» = [] ∧
     (correlateStep failingClient exLinkBase).match_count = 0 ∧
     (correlateStep failingClient exLinkBase).detected = false) ∧
    (∃ r b, computeCoverage emptyOpD 0 Option.none (.ok []) = .ok (r, b) ∧ b = true) ∧
    (∃ r b, computeCoverage emptyOpD 0 (some (correlate failingClient [exLinkBase]))
        (.ok []) = .ok (r, b) ∧ b = false ∧ r.attack_steps = 1) := by
  refine ⟨c5_degrade_and_fallback.1 failingClient exLinkBase (by rfl), ?_, ?_⟩
  · exact ⟨_, _, rfl, c5_degrade_and_fallback.2.1 emptyOpD 0 (.ok []) _ _ (by rfl)⟩
  · exact ⟨_, _, rfl, c5_degrade_and_fallback.2.2 emptyOpD 0 failingClient [exLinkBase]
      (.ok []) _ _ (by rfl)⟩

/-- C6 code_bug: the engine summarizer is graceful on `rule` being a
string (empty/None rule fields), but the coverage-side extractor
`_mitre_ids_from_source` raises on the same document (`'str' object
has no attribute 'get'`: `source.get('rule') or {}` keeps a *truthy*
non-dict), the error propagates through `_prepare_alert` and
`_store_representative`, and an alert-loop pass over such a document
aborts `compute_coverage` entirely. -/
theorem c6_extractor_raises :
    (∃ rec, summarize_hit_body badRuleHit = .ok rec ∧
      rec.get "rule.id" = Val.none ∧ rec.get "mitre.id" = Val.none ∧
      rec.get "description" = Val.str "") ∧
    mitre_ids_from_source badRuleDoc = .error () ∧
    prepare_alert badRuleDoc Val.none = .error () ∧
    store_representative ⟨[], ∅⟩ badRuleDoc "" Val.none = .error () ∧
    computeCoverage emptyOpD 0 Option.none (.ok [badRuleDoc]) = .error () := by
  exact ⟨⟨_, rfl, rfl, rfl, rfl⟩, rfl, rfl, rfl, rfl⟩

/-- C7: every report's detection rate is between 0 and 100 and is a
whole number of hundredths; it is 0 when the engine ran but correlated
zero steps (primary tier, `attack_steps = 0`), and 0 when the engine
raised and the operation declares no techniques (fallback tier,
`total_techniques = 0`).  Both rate branches are guarded, so no
division by zero occurs. -/
theorem c7_detection_rate (op : Operation) (now : Int) (eo : Option (List StepResult))
    (fetched : Except Unit (List Val)) (r : Report) (b : Bool)
    (h : computeCoverage op now eo fetched = .ok (r, b)) :
    (0 ≤ r.detection_rate ∧ r.detection_rate ≤ 100) ∧
    (∃ k : ℤ, r.detection_rate = (k : ℚ) / 100) ∧
    (∀ rs, eo = some rs → r.attack_steps = 0 → r.detection_rate = 0) ∧
    (eo = Option.none → r.total_techniques = 0 → r.detection_rate = 0) := by
  obtain ⟨ot, st1, hOT, hr, hb, hb0⟩ := computeCoverage_inv op now eo fetched r b h
  subst hr
  refine ⟨?_, ?_, ?_, ?_⟩
  · rw [assembleReport_detection_rate]
    exact rateAndSets_rate_bounds _ _ (engineStats_detected_le eo) ot st1.det
  · rw [assembleReport_detection_rate]
    exact rateAndSets_two_decimals _ _ _ _
  · intro rs heo hA
    subst heo
    have hA' : rs.length = 0 := hA
    have hrs : rs = [] := List.eq_nil_of_length_eq_zero hA'
    subst hrs
    have hbf : b = false := by rw [hb]; rfl
    have hst : st1 = (⟨[], ∅⟩ : StoreState) := hb0 hbf
    rw [assembleReport_detection_rate, hst]
    exact rateAndSets_zero_zero ot
  · intro heo hT
    subst heo
    have hot : ot = ∅ := Finset.card_eq_zero.mp hT
    subst hot
    rw [assembleReport_detection_rate]
    exact rateAndSets_empty_ot _ _

/-- C7 witness: the empty operation through the fallback tier has a
well-formed zero rate. -/
theorem c7_detection_rate_witness :
    ∃ r b, computeCoverage emptyOpD 0 Option.none (.ok []) = .ok (r, b) ∧
      0 ≤ r.detection_rate ∧ r.detection_rate ≤ 100 ∧ r.detection_rate = 0 :=
  ⟨_, _, rfl,
    (c7_detection_rate emptyOpD 0 Option.none (.ok []) _ _ rfl).1.1,
    (c7_detection_rate emptyOpD 0 Option.none (.ok []) _ _ rfl).1.2,
    (c7_detection_rate emptyOpD 0 Option.none (.ok []) _ _ rfl).2.2.2 rfl (by rfl)⟩

/-- C8: for every fallback-tier report (the engine prefix raised, so
the alert-range fetch drove the analysis), `matched_techniques` and
`undetected_techniques_list` are disjoint and their union is
`all_operation_techniques`. -/
theorem c8_partition (op : Operation) (now : Int)
    (fetched : Except Unit (List Val)) (r : Report) (b : Bool)
    (h : computeCoverage op now Option.none fetched = .ok (r, b)) :
    r.matched_techniques ∪ r.undetected_techniques_list = r.all_operation_techniques ∧
    Disjoint r.matched_techniques r.undetected_techniques_list := by
  obtain ⟨ot, st1, hOT, hr, hb, hb0⟩ := computeCoverage_inv op now _ fetched r b h
  subst hr
  have hu := rateAndSets_union_disjoint ((engineStats Option.none).1)
    ((engineStats Option.none).2.1) ot st1.det
  exact ⟨hu.1, hu.2⟩

/-- C8 witness: a one-technique operation analyzed in the fallback
tier from one matching fetched alert. -/
theorem c8_partition_witness :
    ∃ r b, computeCoverage opC8 0 Option.none (.ok [alertC8]) = .ok (r, b) ∧
      r.matched_techniques ∪ r.undetected_techniques_list = r.all_operation_techniques ∧
      Disjoint r.matched_techniques r.undetected_techniques_list :=
  ⟨_, _, rfl,
    (c8_partition opC8 0 (.ok [alertC8]) _ _ rfl).1,
    (c8_partition opC8 0 (.ok [alertC8]) _ _ rfl).2⟩

/-- C9 counterexample: on the epoch-seconds string `"1700000000"`, ISO
parsing fails and the coverage-side `_to_utc` does retry it as epoch
seconds — but the correlator's `_to_dt` has no such retry and yields no
timestamp, so a step carrying that string is skipped even though the
backend has matching alerts. -/
theorem c9_counterexample :
    fromisoformat (pyReplace "1700000000" "Z" "+00:00") = Option.none ∧
    to_utc 0 (.str "1700000000") = .ok 1700000000000000 ∧
    to_dt (.str "1700000000") = Option.none ∧
    stepTsEpoch linkEpoch = Option.none ∧
    (stepCandidates exClientPid7 linkEpoch).length = 0 ∧
    (stepCandidates exClientPid7 { exLinkBase with
        finish := .str "2024-01-01T00:00:00Z" }).length = 1 := by
  exact ⟨by rfl, by rfl, by rfl, by rfl, by rfl, by decide⟩

/-- C9 amended: `_to_utc` fails exactly when both the ISO parse (after
`Z → +00:00`) and the epoch-seconds parse fail; the correlator's
`_to_dt` instead fails exactly when the ISO parse (after the
trailing-`Z` rewrite) fails — it never retries epoch seconds; a step
whose normalized timestamp is `None` is skipped (no matches, not
detected), never a fatal error; and a trailing `Z` is accepted as
`+00:00`. -/
theorem c9_timestamp_normalization :
    (∀ (off : Int) (s : String),
      to_utc off (.str s) = .error () ↔
      (fromisoformat (pyReplace s "Z" "+00:00") = Option.none ∧
       pyFloatUs s = Option.none)) ∧
    (∀ s : String,
      to_dt (.str s) = Option.none ↔
      fromisoformat (if endsWithZ (pyStrip s)
        then dropLastChar (pyStrip s) ++ "+00:00" else pyStrip s) = Option.none) ∧
    (∀ (client : Client) (l : Link), stepTsEpoch l = Option.none →
      (correlateStep client l).«matches» = [] ∧
      (correlateStep client l).match_count = 0 ∧
      (correlateStep client l).detected = false) ∧
    (to_dt (.str "2024-01-01T00:10:00Z") = to_dt (.str "2024-01-01T00:10:00+00:00") ∧
     to_dt (.str "2024-01-01T00:10:00Z") = some 1704067800000000) := by
  refine ⟨?_, ?_, ?_, by rfl, by rfl⟩
  · intro off s
    constructor
    · intro h
      unfold to_utc at h
      dsimp only at h
      cases h1 : fromisoformat (pyReplace s "Z" "+00:00") with
      | some d =>
        exfalso
        rw [h1] at h
        dsimp only at h
        cases h2 : d.tz with
        | some o2 => rw [h2] at h; exact Except.noConfusion h
        | none => rw [h2] at h; exact Except.noConfusion h
      | none =>
        refine ⟨rfl, ?_⟩
        rw [h1] at h
        dsimp only at h
        cases h2 : pyFloatUs s with
        | some us => rw [h2] at h; exact Except.noConfusion h
        | none => rfl
    · intro hh
      unfold to_utc
      dsimp only
      rw [hh.1, hh.2]
  · intro s
    constructor
    · intro h
      unfold to_dt at h
      dsimp only at h
      cases h1 : fromisoformat (if endsWithZ (pyStrip s)
          then dropLastChar (pyStrip s) ++ "+00:00" else pyStrip s) with
      | some d => rw [h1] at h; exact Option.noConfusion h
      | none => rfl
    · intro h1
      unfold to_dt
      dsimp only
      rw [h1]
  · intro client l h
    have hsc : stepCandidates client l = [] := by
      unfold stepCandidates
      rw [h]
      simp [epochTruthy]
    have hm : (correlateStep client l).«matches» = [] := by
      rw [correlateStep_matches_def, hsc]
      rfl
    refine ⟨hm, ?_, ?_⟩
    · rw [correlateStep_match_count, hm]
      rfl
    · rw [correlateStep_detected, hm]
      rfl

/-- C9 witness: an unparseable string makes `_to_utc` fail, and the
step with the ISO-unparseable epoch string is skipped gracefully. -/
theorem c9_timestamp_normalization_witness :
    to_utc 0 (.str "garbage") = .error () ∧
    (correlateStep exClientPid7 linkEpoch).«matches» = [] ∧
    (correlateStep exClientPid7 linkEpoch).detected = false :=
  ⟨(c9_timestamp_normalization.1 0 "garbage").mpr ⟨by rfl, by rfl⟩,
   (c9_timestamp_normalization.2.2.1 exClientPid7 linkEpoch (by rfl)).1,
   (c9_timestamp_normalization.2.2.1 exClientPid7 linkEpoch (by rfl)).2.2⟩

/-- C10: every successful `compute_coverage` report has non-None
start/end; start only gives `[start, start + 3h]`, end only gives
`[end − 3h, end]`, neither gives `[now − 3h, now]`; and
`duration_seconds` is the whole-second difference of the resolved
bounds. -/
theorem c10_time_range (op : Operation) (now : Int) (eo : Option (List StepResult))
    (fetched : Except Unit (List Val)) (r : Report) (b : Bool)
    (h : computeCoverage op now eo fetched = .ok (r, b)) :
    (∃ s, r.start_time = some s) ∧ (∃ e, r.end_time = some e) ∧
    (∀ s0, op.start = some s0 → op.stop = Option.none →
      r.start_time = some s0 ∧ r.end_time = some (s0 + default_window)) ∧
    (∀ e0, op.stop = some e0 → op.start = Option.none →
      r.start_time = some (e0 - default_window) ∧ r.end_time = some e0) ∧
    (op.start = Option.none → op.stop = Option.none →
      r.start_time = some (now - default_window) ∧ r.end_time = some now) ∧
    (∀ s0 e0, r.start_time = some s0 → r.end_time = some e0 →
      r.duration_seconds = some (truncDivSec (e0 - s0))) := by
  obtain ⟨ot, st1, hOT, hr, hb, hb0⟩ := computeCoverage_inv op now eo fetched r b h
  subst hr
  refine ⟨⟨_, rfl⟩, ⟨_, rfl⟩, ?_, ?_, ?_, ?_⟩
  · intro s0 h1 h2
    have hrr : resolveRange op.start op.stop now = (s0, s0 + default_window) := by
      rw [h1, h2]
      rfl
    constructor
    · show some (resolveRange op.start op.stop now).1 = some s0
      rw [hrr]
    · show some (resolveRange op.start op.stop now).2 = some (s0 + default_window)
      rw [hrr]
  · intro e0 h1 h2
    have hrr : resolveRange op.start op.stop now = (e0 - default_window, e0) := by
      rw [h1, h2]
      rfl
    constructor
    · show some (resolveRange op.start op.stop now).1 = some (e0 - default_window)
      rw [hrr]
    · show some (resolveRange op.start op.stop now).2 = some e0
      rw [hrr]
  · intro h1 h2
    have hrr : resolveRange op.start op.stop now = (now - default_window, now) := by
      rw [h1, h2]
      rfl
    constructor
    · show some (resolveRange op.start op.stop now).1 = some (now - default_window)
      rw [hrr]
    · show some (resolveRange op.start op.stop now).2 = some now
      rw [hrr]
  · intro s0 e0 hs he
    have hs' : (resolveRange op.start op.stop now).1 = s0 := Option.some.inj hs
    have he' : (resolveRange op.start op.stop now).2 = e0 := Option.some.inj he
    show some (truncDivSec ((resolveRange op.start op.stop now).2 -
      (resolveRange op.start op.stop now).1)) = some (truncDivSec (e0 - s0))
    rw [hs', he']

/-- C10 witness: a start-only operation resolves to the three-hour
window `[1 s, 10801 s]` with `duration_seconds = 10800`. -/
theorem c10_time_range_witness :
    ∃ r b, computeCoverage opStart 0 Option.none (.ok []) = .ok (r, b) ∧
      r.start_time = some 1000000 ∧ r.end_time = some 10801000000 ∧
      r.duration_seconds = some 10800 :=
  ⟨_, _, rfl,
    ((c10_time_range opStart 0 Option.none (.ok []) _ _ rfl).2.2.1 1000000 rfl rfl).1,
    ((c10_time_range opStart 0 Option.none (.ok []) _ _ rfl).2.2.1 1000000 rfl rfl).2,
    (c10_time_range opStart 0 Option.none (.ok []) _ _ rfl).2.2.2.2.2 1000000 10801000000
      ((c10_time_range opStart 0 Option.none (.ok []) _ _ rfl).2.2.1 1000000 rfl rfl).1
      ((c10_time_range opStart 0 Option.none (.ok []) _ _ rfl).2.2.1 1000000 rfl rfl).2⟩

end Bastion
